import Mathlib

/-!
Shallow embedding of the voxelWars terrain generator and chunk mesh builder.

Client side (src/client/src/engine/Player.js, Environment.jsx / Block):
`getBlock`, `shouldRenderFace`, `createSimpleChunkMesh`, `createChunkMesh`,
`createGreedyChunkMesh`, the block palette.

Server side (src/server/src/game/Bot.ts, terrain part):
`generateHeightMap` / per-column height, `generateChunk` (terrain layering,
water, tree sites), `generateTree`, `getTerrainHeight`, `isSolid`.

Conventions of the embedding:
* a chunk grid is a total function `ℤ → ℤ → ℤ → BlockType`; the JS nested
  arrays `chunk[x][y][z]` are read either directly (in-bounds loop indices)
  or through the bounds-checked `getBlock`, exactly as in the source;
  a JS assignment `chunk[x][y][z] = v` becomes a pointwise functional update;
* JS floating point numbers in the height computation are modelled by `ℝ`,
  integer-valued quantities by `ℤ`/`ℕ`;
* the two `Math.random()` sources (tree-site selection, tree height) are
  explicit oracle parameters, and the simplex-noise function (an external
  library) is an explicit function parameter;
* colors: the source stores a hex palette and pushes `r,g,b ∈ [0,1]` floats
  obtained by dividing the 8-bit components by 255; we record the 8-bit
  components themselves, which carries the same information.
-/

/-- Block types, from the `BlockType` enumeration (identical on client and
server). -/
inductive BlockType where
  | air
  | grass
  | dirt
  | stone
  | wood
  | leaves
  | water
deriving DecidableEq, Repr

/-- A chunk grid: dense 16×64×16 array of blocks, modelled as a total
function on integer coordinates (only in-bounds cells are ever read by the
code, directly or via the bounds-checked accessors). -/
def ChunkData : Type := ℤ → ℤ → ℤ → BlockType

/-- The all-Air grid (`generateChunk` initializes the chunk with air). -/
def airGrid : ChunkData := fun _ _ _ => BlockType.air

/-- `chunk[x][y][z] = b` as a functional update. -/
def setBlock (g : ChunkData) (x y z : ℤ) (b : BlockType) : ChunkData :=
  fun a b' c => if a = x ∧ b' = y ∧ c = z then b else g a b' c

/-- In-bounds predicate for local coordinates: x∈[0,16), y∈[0,64), z∈[0,16). -/
def inB (x y z : ℤ) : Prop :=
  0 ≤ x ∧ x < 16 ∧ 0 ≤ y ∧ y < 64 ∧ 0 ≤ z ∧ z < 16

instance (x y z : ℤ) : Decidable (inB x y z) := by
  unfold inB; infer_instance

/-- Client `getBlock`: out-of-bounds coordinates read as Air. -/
def getBlock (c : ChunkData) (x y z : ℤ) : BlockType :=
  if x < 0 ∨ x ≥ 16 ∨ y < 0 ∨ y ≥ 64 ∨ z < 0 ∨ z ≥ 16 then BlockType.air
  else c x y z

/-- Client `shouldRenderFace`: a face is rendered iff the neighbour cell in
the given direction is Air. -/
def shouldRenderFace (c : ChunkData) (x y z : ℤ) (dir : ℤ × ℤ × ℤ) : Bool :=
  decide (getBlock c (x + dir.1) (y + dir.2.1) (z + dir.2.2) = BlockType.air)

/-- Block color palette (`BlockColors` in Block.jsx), as 8-bit r,g,b
components of the hex colors. -/
def blockColor : BlockType → ℕ × ℕ × ℕ
  | BlockType.grass => (126, 200, 80)   -- #7EC850
  | BlockType.dirt => (139, 69, 19)     -- #8B4513
  | BlockType.stone => (128, 128, 128)  -- #808080
  | BlockType.wood => (139, 69, 19)     -- #8B4513
  | BlockType.leaves => (34, 139, 34)   -- #228B22
  | BlockType.water => (74, 144, 226)   -- #4A90E2
  | BlockType.air => (0, 0, 0)          -- #000000 (never rendered)

/-- Client `Block.isSolid(blockType)` (static form). -/
def blockIsSolid (b : BlockType) : Bool :=
  decide (b ≠ BlockType.air)

/-- One face definition of the naive mesher: constant normal, the four
corner offsets of the quad, and the exposure-test direction. -/
structure FaceDef where
  normal : ℤ × ℤ × ℤ
  v0 : ℤ × ℤ × ℤ
  v1 : ℤ × ℤ × ℤ
  v2 : ℤ × ℤ × ℤ
  v3 : ℤ × ℤ × ℤ
  dir : ℤ × ℤ × ℤ
deriving DecidableEq, Repr

/-- The six face definitions of `createSimpleChunkMesh`, in source order:
front (+Z), back (−Z), top (+Y), bottom (−Y), right (+X), left (−X). -/
def faceList : List FaceDef :=
  [⟨(0, 0, 1), (0, 0, 1), (1, 0, 1), (1, 1, 1), (0, 1, 1), (0, 0, 1)⟩,
   ⟨(0, 0, -1), (1, 0, 0), (0, 0, 0), (0, 1, 0), (1, 1, 0), (0, 0, -1)⟩,
   ⟨(0, 1, 0), (0, 1, 0), (0, 1, 1), (1, 1, 1), (1, 1, 0), (0, 1, 0)⟩,
   ⟨(0, -1, 0), (0, 0, 0), (1, 0, 0), (1, 0, 1), (0, 0, 1), (0, -1, 0)⟩,
   ⟨(1, 0, 0), (1, 0, 0), (1, 0, 1), (1, 1, 1), (1, 1, 0), (1, 0, 0)⟩,
   ⟨(-1, 0, 0), (0, 0, 1), (0, 0, 0), (0, 1, 0), (0, 1, 1), (-1, 0, 0)⟩]

/-- One quad emitted by the naive mesher: the cell, its block type and the
face rendered. -/
structure SQuad where
  x : ℤ
  y : ℤ
  z : ℤ
  bt : BlockType
  f : FaceDef
deriving DecidableEq

/-- Cell iteration order of `createSimpleChunkMesh`: x outer, then y, then z. -/
def cellList : List (ℤ × ℤ × ℤ) :=
  ((List.range 16).product ((List.range 64).product (List.range 16))).map
    (fun p => ((p.1 : ℤ), (p.2.1 : ℤ), (p.2.2 : ℤ)))

/-- Quads emitted for one cell of the naive mesher: nothing for Air,
otherwise one quad per exposed face, in face order. -/
def cellQuads (c : ChunkData) (x y z : ℤ) : List SQuad :=
  if c x y z = BlockType.air then []
  else (faceList.filter (fun f => shouldRenderFace c x y z f.dir)).map
    (fun f => ⟨x, y, z, c x y z, f⟩)

/-- All quads emitted by `createSimpleChunkMesh`, in emission order. -/
def naiveQuads (c : ChunkData) : List SQuad :=
  cellList.flatMap (fun p => cellQuads c p.1 p.2.1 p.2.2)

/-- Geometry buffer: flat vertex positions (3 per vertex), flat normals,
flat per-vertex colors (8-bit components) and the triangle index list. -/
structure GeometryBuffer where
  vertices : List ℤ
  normals : List ℤ
  colors : List ℕ
  indices : List ℕ
deriving DecidableEq

/-- The 12 position numbers (4 corners × 3 coordinates) pushed for one
naive-mesher quad. -/
def quadVertexData (x y z : ℤ) (f : FaceDef) : List ℤ :=
  [x + f.v0.1, y + f.v0.2.1, z + f.v0.2.2,
   x + f.v1.1, y + f.v1.2.1, z + f.v1.2.2,
   x + f.v2.1, y + f.v2.2.1, z + f.v2.2.2,
   x + f.v3.1, y + f.v3.2.1, z + f.v3.2.2]

/-- The 12 normal numbers (same constant normal for the 4 corners). -/
def quadNormalData (f : FaceDef) : List ℤ :=
  [f.normal.1, f.normal.2.1, f.normal.2.2,
   f.normal.1, f.normal.2.1, f.normal.2.2,
   f.normal.1, f.normal.2.1, f.normal.2.2,
   f.normal.1, f.normal.2.1, f.normal.2.2]

/-- The 12 color numbers (same block color for the 4 corners). -/
def quadColorData (bt : BlockType) : List ℕ :=
  [(blockColor bt).1, (blockColor bt).2.1, (blockColor bt).2.2,
   (blockColor bt).1, (blockColor bt).2.1, (blockColor bt).2.2,
   (blockColor bt).1, (blockColor bt).2.1, (blockColor bt).2.2,
   (blockColor bt).1, (blockColor bt).2.1, (blockColor bt).2.2]

/-- The 6 indices of the two triangles of a quad at vertex offset `vo`. -/
def quadIndexData (vo : ℕ) : List ℕ :=
  [vo, vo + 1, vo + 2, vo, vo + 2, vo + 3]

/-- Assemble the geometry buffer from the naive-mesher quads, threading the
running vertex offset exactly as the source does. -/
def buildBuffer : List SQuad → ℕ → GeometryBuffer
  | [], _ => ⟨[], [], [], []⟩
  | q :: rest, vo =>
    let b := buildBuffer rest (vo + 4)
    ⟨quadVertexData q.x q.y q.z q.f ++ b.vertices,
     quadNormalData q.f ++ b.normals,
     quadColorData q.bt ++ b.colors,
     quadIndexData vo ++ b.indices⟩

/-- `createSimpleChunkMesh`: `null` (here `none`) for an empty vertex list,
otherwise the assembled geometry buffer. -/
def createSimpleChunkMesh (c : ChunkData) : Option GeometryBuffer :=
  let b := buildBuffer (naiveQuads c) 0
  if b.vertices.isEmpty then none else some b

/-- `createChunkMesh`: the exported entry point; the source simply calls
`createSimpleChunkMesh`. -/
def createChunkMesh (c : ChunkData) : Option GeometryBuffer :=
  createSimpleChunkMesh c

/-! ### Greedy mesher (`createGreedyChunkMesh`)

The source keeps a `dims` table

```
const dims = [[CHUNK_SIZE, CHUNK_HEIGHT, CHUNK_SIZE],
              [CHUNK_HEIGHT, CHUNK_SIZE, CHUNK_SIZE],
              [CHUNK_SIZE, CHUNK_SIZE, CHUNK_HEIGHT]];
```

indexed as `dims[axis][coordinate]`; we reproduce it verbatim (including the
fact that rows 1 and 2 are permutations that do not place the axis extent at
`dims[axis][axis]`). -/

/-- The `dims` matrix of the greedy mesher, exactly as in the source. -/
def dims (a c : ℕ) : ℕ :=
  match a, c with
  | 0, 0 => 16 | 0, 1 => 64 | 0, 2 => 16
  | 1, 0 => 64 | 1, 1 => 16 | 1, 2 => 16
  | 2, 0 => 16 | 2, 1 => 16 | 2, 2 => 64
  | _, _ => 0

/-- `u = (axis + 1) % 3`. -/
def axisU (a : ℕ) : ℕ := (a + 1) % 3

/-- `v = (axis + 2) % 3`. -/
def axisV (a : ℕ) : ℕ := (a + 2) % 3

/-- Mask width `dims[axis][u]` of the slice mask for an axis. -/
def maskU (a : ℕ) : ℕ := dims a (axisU a)

/-- Mask height `dims[axis][v]` of the slice mask for an axis. -/
def maskV (a : ℕ) : ℕ := dims a (axisV a)

/-- Number of slices `dims[axis][axis]` swept along an axis. -/
def sliceCount (a : ℕ) : ℕ := dims a a

/-- The coordinate vector `d` with `d[axis] = slice`, `d[u] = i`,
`d[v] = j`. -/
def coordOf (a slice i j : ℕ) : ℤ × ℤ × ℤ :=
  match a with
  | 0 => ((slice : ℤ), (i : ℤ), (j : ℤ))
  | 1 => ((j : ℤ), (slice : ℤ), (i : ℤ))
  | 2 => ((i : ℤ), (j : ℤ), (slice : ℤ))
  | _ => (0, 0, 0)

/-- The sweep direction `q` (`q[axis] = 1`). -/
def qvec (a : ℕ) : ℤ × ℤ × ℤ :=
  match a with
  | 0 => (1, 0, 0)
  | 1 => (0, 1, 0)
  | 2 => (0, 0, 1)
  | _ => (0, 0, 0)

/-- `du`: `w` along the `u` axis. -/
def duVec (a : ℕ) (w : ℕ) : ℤ × ℤ × ℤ :=
  match a with
  | 0 => (0, (w : ℤ), 0)
  | 1 => (0, 0, (w : ℤ))
  | 2 => ((w : ℤ), 0, 0)
  | _ => (0, 0, 0)

/-- `dv`: `h` along the `v` axis. -/
def dvVec (a : ℕ) (h : ℕ) : ℤ × ℤ × ℤ :=
  match a with
  | 0 => (0, 0, (h : ℤ))
  | 1 => ((h : ℤ), 0, 0)
  | 2 => (0, (h : ℤ), 0)
  | _ => (0, 0, 0)

/-- A slice mask: mask cell `(i,j)` holds the block type of a maskable cell
(solid with Air neighbour one step along the axis), `none` otherwise. -/
def Mask : Type := ℕ → ℕ → Option BlockType

/-- The mask built for one slice: cell `(i,j)` is `some blockType` iff the
cell is non-Air and its neighbour along the sweep axis reads as Air. -/
def maskAt (c : ChunkData) (a slice : ℕ) : Mask := fun i j =>
  let d := coordOf a slice i j
  let q := qvec a
  let bt := getBlock c d.1 d.2.1 d.2.2
  let nb := getBlock c (d.1 + q.1) (d.2.1 + q.2.1) (d.2.2 + q.2.2)
  if bt ≠ BlockType.air ∧ nb = BlockType.air then some bt else none

/-- Clear a `w × h` rectangle of the mask (the source nulls the consumed
cells). -/
def clearRect (m : Mask) (i j w h : ℕ) : Mask := fun a b =>
  if i ≤ a ∧ a < i + w ∧ j ≤ b ∧ b < j + h then none else m a b

/-- Number of extra width steps taken by the loop
`for (w = 1; i + w < U && mask[i+w + j*U] === t; w++)` beyond the current
`w`. -/
def widthSteps (m : Mask) (U : ℕ) (t : BlockType) (i j w : ℕ) : ℕ :=
  if i + w < U ∧ m (i + w) j = some t then widthSteps m U t i j (w + 1) + 1
  else 0
termination_by U - (i + w)
decreasing_by omega

/-- The final `w` of the width loop (starting from `w = 1`). -/
def findWidth (m : Mask) (U : ℕ) (t : BlockType) (i j : ℕ) : ℕ :=
  1 + widthSteps m U t i j 1

/-- Whether a whole prospective row of `w` cells still has type `t`
(the inner `k` loop of the height search). -/
def rowAll (m : Mask) (t : BlockType) (i w j : ℕ) : Bool :=
  (List.range w).all (fun k => decide (m (i + k) j = some t))

/-- Number of extra height steps taken by the height loop beyond the current
`h`. -/
def heightSteps (m : Mask) (V : ℕ) (t : BlockType) (i w j h : ℕ) : ℕ :=
  if j + h < V ∧ rowAll m t i w (j + h) = true then
    heightSteps m V t i w j (h + 1) + 1
  else 0
termination_by V - (j + h)
decreasing_by omega

/-- The final `h` of the height loop (starting from `h = 1`). -/
def findHeight (m : Mask) (V : ℕ) (t : BlockType) (i w j : ℕ) : ℕ :=
  1 + heightSteps m V t i w j 1

/-- One merged rectangle emitted by the greedy scan: position `(i,j)` in the
mask plane, extents `w × h`, block type `t`. -/
structure RectQuad where
  i : ℕ
  j : ℕ
  w : ℕ
  h : ℕ
  t : BlockType
deriving DecidableEq

/-- The inner scan of one mask row `j`: starting at column `i`, claim
maximal rectangles (clearing them from the mask) or advance by one past
unclaimed cells.  Returns the quads emitted from this row onward and the
updated mask. -/
def scanRowAux (U V : ℕ) (m : Mask) (j i : ℕ) : List RectQuad × Mask :=
  if _hi : i < U then
    match m i j with
    | some t =>
      let w := findWidth m U t i j
      let h := findHeight m V t i w j
      let res := scanRowAux U V (clearRect m i j w h) j (i + w)
      (⟨i, j, w, h, t⟩ :: res.1, res.2)
    | none => scanRowAux U V m j (i + 1)
  else ([], m)
termination_by U - i
decreasing_by
  · simp only [findWidth] at *; omega
  · omega

/-- Scan a list of mask rows in order, accumulating emitted quads and
threading the mutated mask. -/
def scanRows (U V : ℕ) (rows : List ℕ) (st : List RectQuad × Mask) :
    List RectQuad × Mask :=
  rows.foldl (fun st j =>
    let r := scanRowAux U V st.2 j 0
    (st.1 ++ r.1, r.2)) st

/-- Greedy-mesh one slice mask: scan rows `j = 0 .. V-1` in order. -/
def scanMask (U V : ℕ) (m : Mask) : List RectQuad :=
  (scanRows U V (List.range V) ([], m)).1

/-- One quad emitted by the greedy mesher: the sweep axis, the slice, and
the merged rectangle in the slice plane. -/
structure GQuad where
  axis : ℕ
  slice : ℕ
  r : RectQuad
deriving DecidableEq

/-- All quads emitted by `createGreedyChunkMesh`, in emission order:
axes 0,1,2, slices in order, rows in order. -/
def greedyQuads (c : ChunkData) : List GQuad :=
  ([0, 1, 2] : List ℕ).flatMap (fun a =>
    (List.range (sliceCount a)).flatMap (fun s =>
      (scanMask (maskU a) (maskV a) (maskAt c a s)).map
        (fun r => GQuad.mk a s r)))

/-- The 12 position numbers pushed for one greedy quad: the corners
`d`, `d+du`, `d+du+dv`, `d+dv`. -/
def gQuadVertexData (q : GQuad) : List ℤ :=
  let d := coordOf q.axis q.slice q.r.i q.r.j
  let du := duVec q.axis q.r.w
  let dv := dvVec q.axis q.r.h
  [d.1, d.2.1, d.2.2,
   d.1 + du.1, d.2.1 + du.2.1, d.2.2 + du.2.2,
   d.1 + du.1 + dv.1, d.2.1 + du.2.1 + dv.2.1, d.2.2 + du.2.2 + dv.2.2,
   d.1 + dv.1, d.2.1 + dv.2.1, d.2.2 + dv.2.2]

/-- The 12 normal numbers of a greedy quad (the sweep direction `q`). -/
def gQuadNormalData (q : GQuad) : List ℤ :=
  [(qvec q.axis).1, (qvec q.axis).2.1, (qvec q.axis).2.2,
   (qvec q.axis).1, (qvec q.axis).2.1, (qvec q.axis).2.2,
   (qvec q.axis).1, (qvec q.axis).2.1, (qvec q.axis).2.2,
   (qvec q.axis).1, (qvec q.axis).2.1, (qvec q.axis).2.2]

/-- Assemble the geometry buffer from the greedy quads. -/
def buildGreedyBuffer : List GQuad → ℕ → GeometryBuffer
  | [], _ => ⟨[], [], [], []⟩
  | q :: rest, vo =>
    let b := buildGreedyBuffer rest (vo + 4)
    ⟨gQuadVertexData q ++ b.vertices,
     gQuadNormalData q ++ b.normals,
     quadColorData q.r.t ++ b.colors,
     quadIndexData vo ++ b.indices⟩

/-- `createGreedyChunkMesh`: `null` (here `none`) for an empty vertex list,
otherwise the assembled geometry buffer. -/
def createGreedyChunkMesh (c : ChunkData) : Option GeometryBuffer :=
  let b := buildGreedyBuffer (greedyQuads c) 0
  if b.vertices.isEmpty then none else some b

/-! ### Server-side terrain generation (Bot.ts, terrain part) -/

/-- Per-column height of `generateHeightMap`, with the simplex-noise
function an explicit parameter (`noise2D` is an external library).  Mirrors
the source: six octaves of noise at doubling frequency and halving
amplitude, normalized; a mountain channel raised to the power 2.5; blend
0.4/0.6; clamp to [0,1]; map to [MIN_HEIGHT, MAX_HEIGHT] = [5,50] and
floor. -/
noncomputable def heightAt (noise : ℝ → ℝ → ℝ) (chunkX chunkZ x z : ℤ) : ℤ :=
  let worldX : ℝ := ((chunkX * 16 + x : ℤ) : ℝ)
  let worldZ : ℝ := ((chunkZ * 16 + z : ℤ) : ℝ)
  let st := (List.range 6).foldl
    (fun (st : ℝ × ℝ × ℝ × ℝ) _ =>
      let nv := st.1
      let amp := st.2.1
      let freq := st.2.2.1
      let maxV := st.2.2.2
      (nv + noise (worldX * freq) (worldZ * freq) * amp,
       amp * 0.5, freq * 2, maxV + amp))
    (0, 1, 0.02, 0)
  let noiseValue := (st.1 / st.2.2.2 + 1) / 2
  let mountainNoise := (noise (worldX * 0.01) (worldZ * 0.01) + 1) / 2
  let mountainInfluence := Real.rpow mountainNoise 2.5
  let finalNoise := noiseValue * 0.4 + mountainInfluence * 0.6
  let clampedNoise := max 0 (min 1 finalNoise)
  Int.floor ((5 : ℝ) + clampedNoise * (50 - 5))

/-- `generateHeightMap`: the 16×16 height map of a chunk, as a function of
the local column. -/
noncomputable def generateHeightMap (noise : ℝ → ℝ → ℝ) (chunkX chunkZ : ℤ) :
    Fin 16 → Fin 16 → ℤ :=
  fun x z => heightAt noise chunkX chunkZ x z

/-- `getTerrainHeight`: the standalone noise-free height query,
`floor(5 + |sin(x·0.02)·cos(z·0.02)|·45)`. -/
noncomputable def getTerrainHeight (worldX worldZ : ℝ) : ℤ :=
  Int.floor ((5 : ℝ) +
    |Real.sin (worldX * 0.02) * Real.cos (worldZ * 0.02)| * (50 - 5))

/-- The block written at height `y` of a column of terrain height `h`:
top layer grass, next down to `h-4` dirt, below that stone (the branch
order of the source loop body). -/
def terrainBlockAt (h y : ℤ) : BlockType :=
  if y = h - 1 then BlockType.grass
  else if y ≥ h - 4 then BlockType.dirt
  else BlockType.stone

/-- Fill one column: terrain blocks for `y = 0 .. h-1`, then water from `h`
up to `WATER_LEVEL = 12` when `h < 12`. -/
def fillColumn (g : ChunkData) (x z h : ℤ) : ChunkData :=
  let g1 := (List.range h.toNat).foldl
    (fun g' (y : ℕ) => setBlock g' x (y : ℤ) z (terrainBlockAt h (y : ℤ))) g
  if h < 12 then
    (List.range (12 - h).toNat).foldl
      (fun g' (k : ℕ) => setBlock g' x (h + (k : ℤ)) z BlockType.water) g1
  else g1

/-- Column iteration order of `generateChunk`: x outer, z inner. -/
def colList : List (ℤ × ℤ) :=
  ((List.range 16).product (List.range 16)).map
    (fun p => ((p.1 : ℤ), (p.2 : ℤ)))

/-- The chunk grid after terrain filling and water, before any tree is
placed. -/
def terrainGrid (hm : ℤ → ℤ → ℤ) : ChunkData :=
  colList.foldl (fun g p => fillColumn g p.1 p.2 (hm p.1 p.2)) airGrid

/-- Tree sites registered during column filling: the top layer is grass,
`10 < h < 35`, and the site-selection coin (`Math.random() < 0.05`,
an oracle here) came up true.  Each site is `(x, terrainHeight, z)`. -/
def treeSites (hm : ℤ → ℤ → ℤ) (site : ℤ → ℤ → Bool) : List (ℤ × ℤ × ℤ) :=
  colList.filterMap (fun p =>
    let h := hm p.1 p.2
    if 10 < h ∧ h < 35 ∧ site p.1 p.2 = true then some (p.1, h, p.2)
    else none)

/-- `generateTree`: trunk of `treeHeight - 2` Wood blocks above ground
(clipped at the vertical bound only), a 3×3×3 Leaves canopy bounds-checked
horizontally and at the top (the trunk-base canopy cell skipped), and a
single cap leaf.  `treeHeight` is the 5–7 random draw, passed explicitly. -/
def generateTree (g : ChunkData) (x y z treeHeight : ℤ) : ChunkData :=
  let trunkH := treeHeight - 2
  let g1 := (List.range trunkH.toNat).foldl
    (fun g' (dy : ℕ) =>
      let blockY := y + (dy : ℤ)
      if blockY < 64 then setBlock g' x blockY z BlockType.wood else g') g
  let leavesY := y + trunkH
  let g2 := ([-1, 0, 1] : List ℤ).foldl
    (fun gA dx =>
      ([-1, 0, 1] : List ℤ).foldl
        (fun gB dz =>
          (List.range 3).foldl
            (fun gC (dy : ℕ) =>
              let leafX := x + dx
              let leafZ := z + dz
              let leafY := leavesY + (dy : ℤ)
              if leafX ≥ 0 ∧ leafX < 16 ∧ leafZ ≥ 0 ∧ leafZ < 16 ∧
                  leafY < 64 then
                if ¬(dx = 0 ∧ dz = 0 ∧ dy = 0) then
                  setBlock gC leafX leafY leafZ BlockType.leaves
                else gC
              else gC) gB) gA) g1
  if leavesY + 3 < 64 then setBlock g2 x (leavesY + 3) z BlockType.leaves
  else g2

/-- `generateChunk`: terrain plus trees.  `site` is the per-column
tree-site coin, `thr` the per-tree `Math.floor(Math.random()*3)` draw
(so tree heights are `5 + thr i ∈ {5,6,7}`). -/
noncomputable def generateChunk (noise : ℝ → ℝ → ℝ) (site : ℤ → ℤ → Bool)
    (thr : ℕ → Fin 3) (chunkX chunkZ : ℤ) : ChunkData :=
  let hm := fun x z => heightAt noise chunkX chunkZ x z
  let g0 := terrainGrid hm
  ((treeSites hm site).enum).foldl
    (fun g p => generateTree g p.2.1 p.2.2.1 p.2.2.2 (5 + ((thr p.1 : ℕ) : ℤ)))
    g0

/-- Server `isSolid`: false out of bounds, otherwise any non-Air block
(including Water) is solid. -/
def isSolid (c : ChunkData) (x y z : ℤ) : Bool :=
  if x < 0 ∨ x ≥ 16 ∨ z < 0 ∨ z ≥ 16 ∨ y < 0 ∨ y ≥ 64 then false
  else decide (c x y z ≠ BlockType.air)

/-! ### Derived notions used by the properties -/

/-- Number of quads emitted by the naive mesher. -/
def naiveQuadCount (c : ChunkData) : ℕ := (naiveQuads c).length

/-- Number of quads emitted by the greedy mesher. -/
def greedyQuadCount (c : ChunkData) : ℕ := (greedyQuads c).length

/-- A chunk grid with no Air cell anywhere in bounds. -/
def fullySolid (c : ChunkData) : Prop :=
  ∀ x y z : ℤ, inB x y z → c x y z ≠ BlockType.air

/-- The neighbour cell a naive-mesher quad's face was tested against. -/
def sQuadNeighbor (q : SQuad) : ℤ × ℤ × ℤ :=
  (q.x + q.f.dir.1, q.y + q.f.dir.2.1, q.z + q.f.dir.2.2)

/-- A naive-mesher quad sits at a fully interior face: the neighbour cell
is inside the grid and non-Air. -/
def sQuadInterior (c : ChunkData) (q : SQuad) : Prop :=
  inB (sQuadNeighbor q).1 (sQuadNeighbor q).2.1 (sQuadNeighbor q).2.2 ∧
    c (sQuadNeighbor q).1 (sQuadNeighbor q).2.1 (sQuadNeighbor q).2.2 ≠
      BlockType.air

/-- The grid cell covered by offset `(k,l)` of a greedy quad's rectangle. -/
def gQuadCell (q : GQuad) (k l : ℕ) : ℤ × ℤ × ℤ :=
  coordOf q.axis q.slice (q.r.i + k) (q.r.j + l)

/-- The neighbour (one step along the sweep axis) of a covered cell of a
greedy quad. -/
def gQuadNeighbor (q : GQuad) (k l : ℕ) : ℤ × ℤ × ℤ :=
  ((gQuadCell q k l).1 + (qvec q.axis).1,
   (gQuadCell q k l).2.1 + (qvec q.axis).2.1,
   (gQuadCell q k l).2.2 + (qvec q.axis).2.2)

/-- Number of greedy quads whose face normal is the given vector. -/
def greedyNormalCount (c : ChunkData) (n : ℤ × ℤ × ℤ) : ℕ :=
  (greedyQuads c).countP (fun q => decide (qvec q.axis = n))

/-- A grid holding exactly one solid cell: block `t` at `(px,py,pz)`, Air
everywhere else. -/
def singleCellChunk (px py pz : ℤ) (t : BlockType) : ChunkData :=
  fun x y z => if x = px ∧ y = py ∧ z = pz then t else BlockType.air

/-- A flat one-block-thick slab of type `t`: cells
`x ∈ [x0, x0+w) × \x7by = k\x7d × z ∈ [z0, z0+h)`, Air everywhere else. -/
def slabChunk (x0 z0 k : ℤ) (w h : ℕ) (t : BlockType) : ChunkData :=
  fun x y z =>
    if x0 ≤ x ∧ x < x0 + (w : ℤ) ∧ y = k ∧ z0 ≤ z ∧ z < z0 + (h : ℤ) then t
    else BlockType.air

/-- The resulting block at height `y` of a filled column with terrain
height `h` (value semantics of `fillColumn` over a previous grid value). -/
def colVal (h y : ℤ) (prev : BlockType) : BlockType :=
  if h < 12 ∧ h ≤ y ∧ y < 12 then BlockType.water
  else if 0 ≤ y ∧ y < h then terrainBlockAt h y
  else prev

/-- A rectangular mask: `some t` exactly on `[a, a+W) × [b, b+H)`. -/
def rectMask (a b W H : ℕ) (t : BlockType) : Mask := fun i j =>
  if a ≤ i ∧ i < a + W ∧ b ≤ j ∧ j < b + H then some t else none

/-- Pointwise sub-mask order: every `some` cell of `m'` is the same `some`
cell of `m` (clearing only removes cells). -/
def maskLe (m' m : Mask) : Prop :=
  ∀ a b t, m' a b = some t → m a b = some t

/-- All cells covered by a rectangle quad carry its type in the mask. -/
def coveredBy (m : Mask) (r : RectQuad) : Prop :=
  ∀ k, k < r.w → ∀ l, l < r.h → m (r.i + k) (r.j + l) = some r.t

/-! ## Generic helper lemmas -/

theorem nodup_split {α : Type} {l : List α} {a : α} (hn : l.Nodup)
    (hm : a ∈ l) : ∃ s t, l = s ++ a :: t ∧ a ∉ s ∧ a ∉ t := by
  obtain ⟨s, t, rfl⟩ := List.append_of_mem hm
  rw [List.nodup_append] at hn
  refine ⟨s, t, rfl, ?_, ?_⟩
  · intro hs
    exact hn.2.2 hs (List.mem_cons_self a t)
  · exact (List.nodup_cons.mp hn.2.1).1

theorem sum_map_single {α : Type} {l : List α} {a : α} {g : α → ℕ} {v : ℕ}
    (hsplit : ∃ s t, l = s ++ a :: t ∧ a ∉ s ∧ a ∉ t)
    (hv : g a = v) (h0 : ∀ b ∈ l, b ≠ a → g b = 0) :
    (l.map g).sum = v := by
  obtain ⟨s, t, rfl, hns, hnt⟩ := hsplit
  have hzs : ∀ b ∈ s, g b = 0 := by
    intro b hb
    refine h0 b (by simp [hb]) ?_
    rintro rfl; exact hns hb
  have hzt : ∀ b ∈ t, g b = 0 := by
    intro b hb
    refine h0 b (by simp [hb]) ?_
    rintro rfl; exact hnt hb
  have hs : (s.map g).sum = 0 := by
    apply List.sum_eq_zero
    intro x hx
    obtain ⟨b, hb, rfl⟩ := List.mem_map.mp hx
    exact hzs b hb
  have ht : (t.map g).sum = 0 := by
    apply List.sum_eq_zero
    intro x hx
    obtain ⟨b, hb, rfl⟩ := List.mem_map.mp hx
    exact hzt b hb
  simp [hs, ht, hv]

theorem foldl_chunk_preserve {α : Type} (l : List α)
    (f : ChunkData → α → ChunkData) (g : ChunkData) (a b c : ℤ)
    (h : ∀ g' e, e ∈ l → f g' e a b c = g' a b c) :
    (l.foldl f g) a b c = g a b c := by
  induction l generalizing g with
  | nil => rfl
  | cons hd tl ih =>
    rw [List.foldl_cons]
    rw [ih (f g hd) (fun g' e he => h g' e (List.mem_cons_of_mem hd he))]
    exact h g hd (List.mem_cons_self hd tl)

theorem setBlock_at (g : ChunkData) (X Y Z : ℤ) (v : BlockType)
    (a b c : ℤ) :
    setBlock g X Y Z v a b c =
      if a = X ∧ b = Y ∧ c = Z then v else g a b c := rfl

theorem setBlock_preserve_out (g : ChunkData) (X Y Z : ℤ) (v : BlockType)
    (a b c : ℤ) (hin : inB X Y Z) (hout : ¬ inB a b c) :
    setBlock g X Y Z v a b c = g a b c := by
  rw [setBlock_at]
  rw [if_neg]
  rintro ⟨rfl, rfl, rfl⟩
  exact hout hin

/-! ## Height bound helpers -/

theorem floor_affine_bounds (v : ℝ) (h0 : 0 ≤ v) (h1 : v ≤ 1) :
    5 ≤ Int.floor ((5 : ℝ) + v * (50 - 5)) ∧
      Int.floor ((5 : ℝ) + v * (50 - 5)) ≤ 50 := by
  constructor
  · rw [Int.le_floor]
    push_cast
    nlinarith
  · have hle : (5 : ℝ) + v * (50 - 5) ≤ ((50 : ℤ) : ℝ) := by
      push_cast
      nlinarith
    calc Int.floor ((5 : ℝ) + v * (50 - 5)) ≤ Int.floor (((50 : ℤ) : ℝ)) :=
          Int.floor_le_floor hle
      _ = 50 := Int.floor_intCast 50

theorem heightAt_bounds (noise : ℝ → ℝ → ℝ) (cx cz x z : ℤ) :
    5 ≤ heightAt noise cx cz x z ∧ heightAt noise cx cz x z ≤ 50 := by
  unfold heightAt
  exact floor_affine_bounds _ (le_max_left 0 _)
    (max_le (by norm_num) (min_le_left 1 _))

/-! ## Claim theorems (easy group) -/

/-- C10: the exported mesh-building entry point `createChunkMesh` is
extensionally equal to the naive mesher `createSimpleChunkMesh` on every
chunk grid (the source body is a direct call; the greedy variant plays no
role on this path). -/
theorem claimC10 (c : ChunkData) :
    createChunkMesh c = createSimpleChunkMesh c := rfl

/-- C8: with the noise function and the two random oracles fixed, two
calls of `generateHeightMap` with identical chunk coordinates produce
identical height maps, and two calls of `generateChunk` with identical
coordinates produce identical chunk grids (the embedding is pure: equal
inputs give equal outputs). -/
theorem claimC8 (n₁ n₂ : ℝ → ℝ → ℝ) (s₁ s₂ : ℤ → ℤ → Bool)
    (t₁ t₂ : ℕ → Fin 3) (cx₁ cx₂ cz₁ cz₂ : ℤ)
    (hn : n₁ = n₂) (hs : s₁ = s₂) (ht : t₁ = t₂)
    (hcx : cx₁ = cx₂) (hcz : cz₁ = cz₂) :
    generateHeightMap n₁ cx₁ cz₁ = generateHeightMap n₂ cx₂ cz₂ ∧
      generateChunk n₁ s₁ t₁ cx₁ cz₁ = generateChunk n₂ s₂ t₂ cx₂ cz₂ := by
  subst hn; subst hs; subst ht; subst hcx; subst hcz
  exact ⟨rfl, rfl⟩

theorem claimC8_witness :
    ((fun _ _ => (0 : ℝ)) = (fun _ _ => (0 : ℝ) : ℝ → ℝ → ℝ)) ∧
      (generateHeightMap (fun _ _ => 0) 0 0 =
          generateHeightMap (fun _ _ => 0) 0 0 ∧
        generateChunk (fun _ _ => 0) (fun _ _ => false) (fun _ => 0) 0 0 =
          generateChunk (fun _ _ => 0) (fun _ _ => false) (fun _ => 0) 0 0) :=
  ⟨rfl, claimC8 (fun _ _ => 0) (fun _ _ => 0) (fun _ _ => false)
    (fun _ _ => false) (fun _ => 0) (fun _ => 0) 0 0 0 0
    rfl rfl rfl rfl rfl⟩

/-- C6: every entry of the height map of `generateHeightMap` (for every
noise function and chunk coordinate) and every value of
`getTerrainHeight` is an integer in [5, 50]. -/
theorem claimC6 (noise : ℝ → ℝ → ℝ) (cx cz : ℤ) (x z : Fin 16)
    (wx wz : ℝ) :
    (5 ≤ generateHeightMap noise cx cz x z ∧
      generateHeightMap noise cx cz x z ≤ 50) ∧
    (5 ≤ getTerrainHeight wx wz ∧ getTerrainHeight wx wz ≤ 50) := by
  constructor
  · exact heightAt_bounds noise cx cz x z
  · unfold getTerrainHeight
    apply floor_affine_bounds
    · exact abs_nonneg _
    · rw [abs_mul]
      exact mul_le_one₀ (Real.abs_sin_le_one _) (abs_nonneg _)
        (Real.abs_cos_le_one _)

/-- C7: `shouldRenderFace` returns true iff the neighbour cell offset by
the direction vector reads as Air through `getBlock`, out-of-bounds
coordinates read as Air, and a Water neighbour makes the face not
exposed. -/
theorem claimC7 (c : ChunkData) (x y z dx dy dz : ℤ) :
    (¬ inB (x + dx) (y + dy) (z + dz) →
        getBlock c (x + dx) (y + dy) (z + dz) = BlockType.air) ∧
    (shouldRenderFace c x y z (dx, dy, dz) = true ↔
        getBlock c (x + dx) (y + dy) (z + dz) = BlockType.air) ∧
    (getBlock c (x + dx) (y + dy) (z + dz) = BlockType.water →
        shouldRenderFace c x y z (dx, dy, dz) = false) := by
  refine ⟨?_, ?_, ?_⟩
  · intro hout
    unfold getBlock
    rw [if_pos]
    unfold inB at hout
    omega
  · unfold shouldRenderFace
    simp
  · intro hw
    unfold shouldRenderFace
    simp only [hw]
    decide

theorem claimC7_witness :
    (¬ inB (0 + 16) (0 + 0) (0 + 0) →
        getBlock airGrid (0 + 16) (0 + 0) (0 + 0) = BlockType.air) ∧
    (shouldRenderFace airGrid 0 0 0 (16, 0, 0) = true ↔
        getBlock airGrid (0 + 16) (0 + 0) (0 + 0) = BlockType.air) ∧
    (getBlock airGrid (0 + 16) (0 + 0) (0 + 0) = BlockType.water →
        shouldRenderFace airGrid 0 0 0 (16, 0, 0) = false) :=
  claimC7 airGrid 0 0 0 16 0 0

/-- C5 counterexample: the claim says `isSolid` classifies Water as
non-solid, but on a grid holding Water at (0,0,0) the server `isSolid`
returns true (and the client `Block.isSolid` also returns true on
Water): Water is solid for both implementations. -/
theorem claimC5_counterexample :
    isSolid (fun _ _ _ => BlockType.water) 0 0 0 = true ∧
      blockIsSolid BlockType.water = true := by
  constructor <;> rfl

/-- C5 (amended): for every in-bounds cell, `isSolid` returns true iff
the cell is non-Air; in particular a Water cell is solid (only Air, and
out-of-bounds coordinates, are non-solid). -/
theorem claimC5 (c : ChunkData) (x y z : ℤ) (hin : inB x y z) :
    (isSolid c x y z = true ↔ c x y z ≠ BlockType.air) ∧
      (c x y z = BlockType.water → isSolid c x y z = true) := by
  unfold isSolid
  unfold inB at hin
  rw [if_neg (by omega)]
  constructor
  · simp
  · intro hw
    simp [hw]

theorem claimC5_witness :
    inB 1 2 3 ∧
      ((isSolid (fun _ _ _ => BlockType.water) 1 2 3 = true ↔
          (fun _ _ _ => BlockType.water) 1 2 3 ≠ BlockType.air) ∧
        ((fun _ _ _ => BlockType.water) 1 2 3 = BlockType.water →
          isSolid (fun _ _ _ => BlockType.water) 1 2 3 = true)) :=
  ⟨by decide, claimC5 (fun _ _ _ => BlockType.water) 1 2 3 (by decide)⟩

/-! ## Column fill value lemmas (server terrain) -/

theorem terrainFold_at (x z h : ℤ) (n : ℕ) (g : ChunkData) (a b c : ℤ) :
    ((List.range n).foldl
      (fun g' (y : ℕ) => setBlock g' x (y : ℤ) z (terrainBlockAt h (y : ℤ)))
      g) a b c =
      if a = x ∧ c = z ∧ 0 ≤ b ∧ b < (n : ℤ) then terrainBlockAt h b
      else g a b c := by
  induction n generalizing g with
  | zero =>
    simp only [List.range_zero, List.foldl_nil]
    rw [if_neg (by omega)]
  | succ n ih =>
    rw [List.range_succ, List.foldl_append, List.foldl_cons, List.foldl_nil]
    rw [setBlock_at, ih]
    by_cases hxz : a = x ∧ c = z
    · by_cases hb : b = (n : ℤ)
      · subst hb
        rw [if_pos ⟨hxz.1, rfl, hxz.2⟩, if_pos ⟨hxz.1, hxz.2, by omega⟩]
      · rw [if_neg (by tauto)]
        by_cases hr : 0 ≤ b ∧ b < (n : ℤ)
        · rw [if_pos ⟨hxz.1, hxz.2, hr.1, hr.2⟩,
            if_pos ⟨hxz.1, hxz.2, hr.1, by omega⟩]
        · rw [if_neg (by tauto), if_neg (by omega)]
    · rw [if_neg (by tauto), if_neg (by tauto), if_neg (by tauto)]

theorem waterFold_at (x z h : ℤ) (n : ℕ) (g : ChunkData) (a b c : ℤ) :
    ((List.range n).foldl
      (fun g' (k : ℕ) => setBlock g' x (h + (k : ℤ)) z BlockType.water)
      g) a b c =
      if a = x ∧ c = z ∧ h ≤ b ∧ b < h + (n : ℤ) then BlockType.water
      else g a b c := by
  induction n generalizing g with
  | zero =>
    simp only [List.range_zero, List.foldl_nil]
    rw [if_neg (by omega)]
  | succ n ih =>
    rw [List.range_succ, List.foldl_append, List.foldl_cons, List.foldl_nil]
    rw [setBlock_at, ih]
    by_cases hxz : a = x ∧ c = z
    · by_cases hb : b = h + (n : ℤ)
      · subst hb
        rw [if_pos ⟨hxz.1, rfl, hxz.2⟩, if_pos ⟨hxz.1, hxz.2, by omega⟩]
      · rw [if_neg (by tauto)]
        by_cases hr : h ≤ b ∧ b < h + (n : ℤ)
        · rw [if_pos ⟨hxz.1, hxz.2, hr.1, hr.2⟩,
            if_pos ⟨hxz.1, hxz.2, hr.1, by omega⟩]
        · rw [if_neg (by tauto), if_neg (by omega)]
    · rw [if_neg (by tauto), if_neg (by tauto), if_neg (by tauto)]

theorem fillColumn_at (g : ChunkData) (x z h : ℤ) (a b c : ℤ) :
    fillColumn g x z h a b c =
      if a = x ∧ c = z then colVal h b (g a b c) else g a b c := by
  unfold fillColumn
  split
  next hw =>
    rw [waterFold_at, terrainFold_at]
    unfold colVal
    split_ifs <;> first | rfl | omega
  next hw =>
    rw [terrainFold_at]
    unfold colVal
    split_ifs <;> first | rfl | omega

theorem fold_cols_untouched (hm : ℤ → ℤ → ℤ) (cols : List (ℤ × ℤ))
    (g : ChunkData) (a b c : ℤ)
    (h : ∀ p ∈ cols, ¬(a = p.1 ∧ c = p.2)) :
    (cols.foldl (fun g p => fillColumn g p.1 p.2 (hm p.1 p.2)) g) a b c =
      g a b c := by
  apply foldl_chunk_preserve
  intro g' p hp
  rw [fillColumn_at, if_neg (h p hp)]

theorem colList_nodup : colList.Nodup := by
  unfold colList
  apply List.Nodup.map
  · intro p q hpq
    simp only [Prod.ext_iff] at hpq ⊢
    omega
  · exact List.Nodup.product (List.nodup_range 16) (List.nodup_range 16)

theorem colList_mem (x z : ℤ) (hx0 : 0 ≤ x) (hx1 : x < 16) (hz0 : 0 ≤ z)
    (hz1 : z < 16) : (x, z) ∈ colList := by
  unfold colList
  apply List.mem_map.mpr
  refine ⟨(x.toNat, z.toNat), ?_, ?_⟩
  · apply List.pair_mem_product.mpr
    constructor <;> (rw [List.mem_range]; omega)
  · simp only [Prod.ext_iff]
    constructor <;> omega

theorem terrainGrid_at (hm : ℤ → ℤ → ℤ) (x y z : ℤ) (hx0 : 0 ≤ x)
    (hx1 : x < 16) (hz0 : 0 ≤ z) (hz1 : z < 16) :
    terrainGrid hm x y z = colVal (hm x z) y BlockType.air := by
  unfold terrainGrid
  obtain ⟨s, t, heq, hns, hnt⟩ :=
    nodup_split colList_nodup (colList_mem x z hx0 hx1 hz0 hz1)
  rw [heq, List.foldl_append, List.foldl_cons]
  rw [fold_cols_untouched hm t _ x y z ?ht]
  case ht =>
    intro p hp hcontr
    apply hnt
    have : (x, z) = p := Prod.ext hcontr.1 hcontr.2
    rwa [this]
  rw [fillColumn_at, if_pos ⟨rfl, rfl⟩]
  congr 1
  rw [fold_cols_untouched hm s _ x y z ?hs]
  case hs =>
    intro p hp hcontr
    apply hns
    have : (x, z) = p := Prod.ext hcontr.1 hcontr.2
    rwa [this]
  rfl

/-- C3: in every column of the chunk grid produced by `generateChunk`,
before any tree writes (the terrain-and-water stage `terrainGrid`), with
`h` the column height: cells `y < h-4` are Stone, cells `h-4 ≤ y < h-1`
are Dirt, the cell `y = h-1` is Grass, and Water appears only at `y ≥ h`,
never below the terrain surface. -/
theorem claimC3 (noise : ℝ → ℝ → ℝ) (cx cz x y z : ℤ) (hin : inB x y z) :
    (y < heightAt noise cx cz x z - 4 →
        terrainGrid (heightAt noise cx cz) x y z = BlockType.stone) ∧
    (heightAt noise cx cz x z - 4 ≤ y → y < heightAt noise cx cz x z - 1 →
        terrainGrid (heightAt noise cx cz) x y z = BlockType.dirt) ∧
    (y = heightAt noise cx cz x z - 1 →
        terrainGrid (heightAt noise cx cz) x y z = BlockType.grass) ∧
    (terrainGrid (heightAt noise cx cz) x y z = BlockType.water →
        heightAt noise cx cz x z ≤ y) := by
  obtain ⟨hx0, hx1, hy0, hy1, hz0, hz1⟩ := hin
  have hg := terrainGrid_at (heightAt noise cx cz) x y z hx0 hx1 hz0 hz1
  have hb := heightAt_bounds noise cx cz x z
  rw [hg]
  unfold colVal terrainBlockAt
  refine ⟨?_, ?_, ?_, ?_⟩
  · intro hy
    rw [if_neg (by omega), if_pos (by omega), if_neg (by omega),
      if_neg (by omega)]
  · intro hy2 hy3
    rw [if_neg (by omega), if_pos (by omega), if_neg (by omega),
      if_pos (by omega)]
  · intro hy2
    rw [if_neg (by omega), if_pos (by omega), if_pos (by omega)]
  · intro hw
    split_ifs at hw
    all_goals omega

theorem claimC3_witness :
    inB 3 5 7 ∧
      ((5 < heightAt (fun _ _ => 0) 0 0 3 7 - 4 →
          terrainGrid (heightAt (fun _ _ => 0) 0 0) 3 5 7 =
            BlockType.stone) ∧
        (heightAt (fun _ _ => 0) 0 0 3 7 - 4 ≤ 5 →
            5 < heightAt (fun _ _ => 0) 0 0 3 7 - 1 →
          terrainGrid (heightAt (fun _ _ => 0) 0 0) 3 5 7 =
            BlockType.dirt) ∧
        ((5 : ℤ) = heightAt (fun _ _ => 0) 0 0 3 7 - 1 →
          terrainGrid (heightAt (fun _ _ => 0) 0 0) 3 5 7 =
            BlockType.grass) ∧
        (terrainGrid (heightAt (fun _ _ => 0) 0 0) 3 5 7 =
            BlockType.water →
          heightAt (fun _ _ => 0) 0 0 3 7 ≤ 5)) :=
  ⟨by decide, claimC3 (fun _ _ => 0) 0 0 3 5 7 (by decide)⟩

/-! ## Geometry buffer length lemmas -/

theorem buildBuffer_vertices_length (qs : List SQuad) (vo : ℕ) :
    (buildBuffer qs vo).vertices.length = 12 * qs.length := by
  induction qs generalizing vo with
  | nil => rfl
  | cons q rest ih =>
    show (quadVertexData q.x q.y q.z q.f ++
      (buildBuffer rest (vo + 4)).vertices).length = _
    rw [List.length_append, ih]
    simp [quadVertexData, List.length_cons, Nat.mul_succ]
    ring

theorem buildGreedyBuffer_vertices_length (qs : List GQuad) (vo : ℕ) :
    (buildGreedyBuffer qs vo).vertices.length = 12 * qs.length := by
  induction qs generalizing vo with
  | nil => rfl
  | cons q rest ih =>
    show (gQuadVertexData q ++
      (buildGreedyBuffer rest (vo + 4)).vertices).length = _
    rw [List.length_append, ih]
    simp [gQuadVertexData, List.length_cons, Nat.mul_succ]
    ring

theorem buildBuffer_indices_length (qs : List SQuad) (vo : ℕ) :
    (buildBuffer qs vo).indices.length = 6 * qs.length := by
  induction qs generalizing vo with
  | nil => rfl
  | cons q rest ih =>
    show (quadIndexData vo ++ (buildBuffer rest (vo + 4)).indices).length = _
    rw [List.length_append, ih]
    simp [quadIndexData, List.length_cons, Nat.mul_succ]
    ring

/-! ## Scan lemmas: all-none masks -/

theorem getBlock_airGrid (x y z : ℤ) :
    getBlock airGrid x y z = BlockType.air := by
  unfold getBlock airGrid
  split <;> rfl

theorem maskAt_airGrid (a s i j : ℕ) : maskAt airGrid a s i j = none := by
  unfold maskAt
  rw [if_neg]
  dsimp only
  rw [getBlock_airGrid]
  simp

theorem scanRowAux_none (U V : ℕ) (m : Mask) (j i : ℕ)
    (h : ∀ a, i ≤ a → a < U → m a j = none) :
    scanRowAux U V m j i = ([], m) := by
  unfold scanRowAux
  split
  next hi =>
    have h0 : m i j = none := h i le_rfl hi
    simp only [h0]
    exact scanRowAux_none U V m j (i + 1)
      (fun a ha hU => h a (by omega) hU)
  next => rfl
termination_by U - i
decreasing_by omega

theorem scanRows_none (U V : ℕ) (rows : List ℕ) (qs : List RectQuad)
    (m : Mask) (h : ∀ a b, m a b = none) :
    scanRows U V rows (qs, m) = (qs, m) := by
  induction rows generalizing qs with
  | nil => rfl
  | cons j tl ih =>
    unfold scanRows
    rw [List.foldl_cons]
    dsimp only
    rw [scanRowAux_none U V m j 0 (fun a _ _ => h a j)]
    simp only [List.append_nil]
    exact ih qs

theorem scanMask_none (U V : ℕ) (m : Mask) (h : ∀ a b, m a b = none) :
    scanMask U V m = [] := by
  unfold scanMask
  rw [scanRows_none U V _ [] m h]

theorem greedyQuads_airGrid : greedyQuads airGrid = [] := by
  unfold greedyQuads
  apply List.flatMap_eq_nil_iff.mpr
  intro a _
  apply List.flatMap_eq_nil_iff.mpr
  intro sl _
  rw [scanMask_none _ _ _ (fun i j => maskAt_airGrid a sl i j)]
  rfl

theorem naiveQuads_airGrid : naiveQuads airGrid = [] := by
  unfold naiveQuads
  apply List.flatMap_eq_nil_iff.mpr
  intro p _
  unfold cellQuads airGrid
  simp

/-! ## Scan lemmas: width and height searches -/

theorem rowAll_iff (m : Mask) (t : BlockType) (i w j : ℕ) :
    rowAll m t i w j = true ↔ ∀ k, k < w → m (i + k) j = some t := by
  unfold rowAll
  simp [List.all_eq_true, List.mem_range]

theorem widthSteps_covered (m : Mask) (U : ℕ) (t : BlockType) (i j w : ℕ)
    (hcov : ∀ k, k < w → m (i + k) j = some t) :
    ∀ k, k < w + widthSteps m U t i j w → m (i + k) j = some t := by
  unfold widthSteps
  split
  next h =>
    intro k hk
    have hcov' : ∀ k', k' < w + 1 → m (i + k') j = some t := by
      intro k' hk'
      by_cases hkw : k' = w
      · subst hkw
        exact h.2
      · exact hcov k' (by omega)
    exact widthSteps_covered m U t i j (w + 1) hcov' k (by omega)
  next =>
    intro k hk
    exact hcov k (by omega)
termination_by U - (i + w)
decreasing_by omega

theorem heightSteps_covered (m : Mask) (V : ℕ) (t : BlockType)
    (i w j h : ℕ)
    (hcov : ∀ l, 1 ≤ l → l < h → rowAll m t i w (j + l) = true) :
    ∀ l, 1 ≤ l → l < h + heightSteps m V t i w j h →
      rowAll m t i w (j + l) = true := by
  unfold heightSteps
  split
  next hc =>
    intro l hl1 hl2
    have hcov' : ∀ l', 1 ≤ l' → l' < h + 1 → rowAll m t i w (j + l') = true := by
      intro l' h1 h2
      by_cases hlh : l' = h
      · subst hlh
        exact hc.2
      · exact hcov l' h1 (by omega)
    exact heightSteps_covered m V t i w j (h + 1) hcov' l hl1 (by omega)
  next =>
    intro l hl1 hl2
    exact hcov l hl1 (by omega)
termination_by V - (j + h)
decreasing_by omega

theorem widthSteps_rect (a b W H : ℕ) (t : BlockType) (U j w : ℕ)
    (hWU : a + W ≤ U) (hj1 : b ≤ j) (hj2 : j < b + H)
    (hw : 1 ≤ w) (hwW : w ≤ W) :
    w + widthSteps (rectMask a b W H t) U t a j w = W := by
  unfold widthSteps
  split
  next h =>
    have hlt : w < W := by
      have h2 := h.2
      unfold rectMask at h2
      by_cases hc : a ≤ a + w ∧ a + w < a + W ∧ b ≤ j ∧ j < b + H
      · omega
      · rw [if_neg hc] at h2
        cases h2
    have := widthSteps_rect a b W H t U j (w + 1) hWU hj1 hj2 (by omega)
      (by omega)
    omega
  next h =>
    rcases Nat.lt_or_ge w W with hlt | hge
    · exfalso
      apply h
      refine ⟨by omega, ?_⟩
      unfold rectMask
      rw [if_pos (by omega)]
    · omega
termination_by W - w
decreasing_by omega

theorem heightSteps_rect (a b W H : ℕ) (t : BlockType) (V h : ℕ)
    (hW : 1 ≤ W) (hHV : b + H ≤ V) (hh : 1 ≤ h) (hhH : h ≤ H) :
    h + heightSteps (rectMask a b W H t) V t a W b h = H := by
  unfold heightSteps
  split
  next hc =>
    have hlt : h < H := by
      by_contra hge
      have := (rowAll_iff _ _ _ _ _).mp hc.2 0 (by omega)
      unfold rectMask at this
      rw [if_neg (by omega)] at this
      cases this
    have := heightSteps_rect a b W H t V (h + 1) hW hHV (by omega) (by omega)
    omega
  next hc =>
    rcases Nat.lt_or_ge h H with hlt | hge
    · exfalso
      apply hc
      refine ⟨by omega, (rowAll_iff _ _ _ _ _).mpr ?_⟩
      intro k hk
      unfold rectMask
      rw [if_pos (by omega)]
    · omega
termination_by H - h
decreasing_by omega

theorem findWidth_rect (a b W H : ℕ) (t : BlockType) (U j : ℕ)
    (hW : 1 ≤ W) (hWU : a + W ≤ U) (hj1 : b ≤ j) (hj2 : j < b + H) :
    findWidth (rectMask a b W H t) U t a j = W := by
  unfold findWidth
  exact widthSteps_rect a b W H t U j 1 hWU hj1 hj2 le_rfl hW

theorem findHeight_rect (a b W H : ℕ) (t : BlockType) (V : ℕ)
    (hW : 1 ≤ W) (hH : 1 ≤ H) (hHV : b + H ≤ V) :
    findHeight (rectMask a b W H t) V t a W b = H := by
  unfold findHeight
  exact heightSteps_rect a b W H t V 1 hW hHV le_rfl hH

theorem clearRect_le (m : Mask) (i j w h : ℕ) :
    maskLe (clearRect m i j w h) m := by
  intro a b t hcl
  unfold clearRect at hcl
  by_cases hc : i ≤ a ∧ a < i + w ∧ j ≤ b ∧ b < j + h
  · rw [if_pos hc] at hcl
    cases hcl
  · rwa [if_neg hc] at hcl

theorem clearRect_rect (a b W H : ℕ) (t : BlockType) (x y : ℕ) :
    clearRect (rectMask a b W H t) a b W H x y = none := by
  unfold clearRect rectMask
  split_ifs <;> rfl

theorem maskLe_trans {m1 m2 m3 : Mask} (h1 : maskLe m1 m2)
    (h2 : maskLe m2 m3) : maskLe m1 m3 :=
  fun a b t h => h2 a b t (h1 a b t h)

/-! ## Scan lemmas: row scanning -/

theorem scanRowAux_skip (U V : ℕ) (m : Mask) (j i a : ℕ) (hia : i ≤ a)
    (h : ∀ x, i ≤ x → x < a → m x j = none) :
    scanRowAux U V m j i = scanRowAux U V m j a := by
  rcases Nat.eq_or_lt_of_le hia with rfl | hlt
  · rfl
  · by_cases hiU : i < U
    · conv_lhs => rw [scanRowAux]
      rw [dif_pos hiU]
      simp only [h i le_rfl hlt]
      exact scanRowAux_skip U V m j (i + 1) a (by omega)
        (fun x h1 h2 => h x (by omega) h2)
    · conv_lhs => rw [scanRowAux]
      rw [dif_neg hiU]
      conv_rhs => rw [scanRowAux]
      rw [dif_neg (by omega)]
termination_by a - i
decreasing_by omega

theorem scanRowAux_mask_le (U V : ℕ) (m : Mask) (j i : ℕ) :
    maskLe (scanRowAux U V m j i).2 m := by
  unfold scanRowAux
  split
  next hi =>
    rcases hmi : m i j with _ | t
    · simp only [hmi]
      exact scanRowAux_mask_le U V m j (i + 1)
    · simp only [hmi]
      exact maskLe_trans
        (scanRowAux_mask_le U V
          (clearRect m i j (findWidth m U t i j)
            (findHeight m V t i (findWidth m U t i j) j)) j
          (i + findWidth m U t i j))
        (clearRect_le m i j _ _)
  next =>
    exact fun a b t h => h
termination_by U - i
decreasing_by all_goals first | omega | (simp only [findWidth]; omega)

theorem scanRowAux_quads_covered (U V : ℕ) (m : Mask) (j i : ℕ) :
    ∀ q ∈ (scanRowAux U V m j i).1, coveredBy m q := by
  unfold scanRowAux
  split
  next hi =>
    rcases hmi : m i j with _ | t
    · simp only [hmi]
      exact scanRowAux_quads_covered U V m j (i + 1)
    · simp only [hmi]
      intro q hq
      rcases List.mem_cons.mp hq with rfl | hq'
      · intro k hk l hl
        dsimp only at hk hl ⊢
        rcases Nat.eq_zero_or_pos l with rfl | hl1
        · have hbase : ∀ k', k' < 1 → m (i + k') j = some t := by
            intro k' hk'
            have : k' = 0 := by omega
            subst this
            simpa using hmi
          have := widthSteps_covered m U t i j 1 hbase k
            (by unfold findWidth at hk; omega)
          simpa using this
        · have hrows := heightSteps_covered m V t i (findWidth m U t i j)
            j 1 (by intro l' h1 h2; omega)
          have hra := hrows l hl1
            (by unfold findHeight at hl; omega)
          exact (rowAll_iff _ _ _ _ _).mp hra k hk
      · intro k hk l hl
        have hrec := scanRowAux_quads_covered U V
          (clearRect m i j (findWidth m U t i j)
            (findHeight m V t i (findWidth m U t i j) j)) j
          (i + findWidth m U t i j) q hq' k hk l hl
        exact clearRect_le m i j _ _ _ _ _ hrec
  next =>
    intro q hq
    cases hq
termination_by U - i
decreasing_by all_goals first | omega | (simp only [findWidth]; omega)

theorem scanRowAux_rect (U V a b W H : ℕ) (t : BlockType)
    (hW : 1 ≤ W) (hH : 1 ≤ H) (hWU : a + W ≤ U) (hHV : b + H ≤ V) :
    scanRowAux U V (rectMask a b W H t) b 0 =
      ([⟨a, b, W, H, t⟩], clearRect (rectMask a b W H t) a b W H) := by
  rw [scanRowAux_skip U V _ b 0 a (by omega) ?hpre]
  case hpre =>
    intro x _ hx
    unfold rectMask
    rw [if_neg (by omega)]
  rw [scanRowAux]
  rw [dif_pos (by omega)]
  have hma : rectMask a b W H t a b = some t := by
    unfold rectMask
    rw [if_pos (by omega)]
  simp only [hma]
  rw [findWidth_rect a b W H t U b hW hWU le_rfl (by omega)]
  rw [findHeight_rect a b W H t V hW hH hHV]
  rw [scanRowAux_none U V _ b (a + W)
    (fun x hx hxU => clearRect_rect a b W H t x b)]

/-! ## Scan lemmas: whole-mask scanning -/

theorem scanRows_rows_none (U V : ℕ) (rows : List ℕ)
    (qs : List RectQuad) (m : Mask)
    (h : ∀ j ∈ rows, ∀ x, m x j = none) :
    scanRows U V rows (qs, m) = (qs, m) := by
  induction rows generalizing qs with
  | nil => rfl
  | cons j tl ih =>
    unfold scanRows
    rw [List.foldl_cons]
    dsimp only
    rw [scanRowAux_none U V m j 0
      (fun x _ _ => h j (List.mem_cons_self j tl) x)]
    simp only [List.append_nil]
    exact ih qs (fun j' hj' x => h j' (List.mem_cons_of_mem j hj') x)

theorem scanRows_append (U V : ℕ) (r1 r2 : List ℕ)
    (st : List RectQuad × Mask) :
    scanRows U V (r1 ++ r2) st = scanRows U V r2 (scanRows U V r1 st) := by
  unfold scanRows
  rw [List.foldl_append]

theorem range_split_at (b V : ℕ) (hb : b < V) :
    List.range V =
      List.range b ++ b :: (List.range (V - (b + 1))).map (fun k => (b + 1) + k) := by
  have hV : V = (b + 1) + (V - (b + 1)) := by omega
  calc List.range V = List.range ((b + 1) + (V - (b + 1))) := by rw [← hV]
    _ = List.range (b + 1) ++ (List.range (V - (b + 1))).map ((b + 1) + ·) :=
        List.range_add (b + 1) (V - (b + 1))
    _ = (List.range b ++ [b]) ++
          (List.range (V - (b + 1))).map (fun k => (b + 1) + k) := by
        rw [List.range_succ]
    _ = List.range b ++ b ::
          (List.range (V - (b + 1))).map (fun k => (b + 1) + k) := by
        rw [List.append_assoc]
        rfl

theorem scanMask_rect (U V a b W H : ℕ) (t : BlockType)
    (hW : 1 ≤ W) (hH : 1 ≤ H) (hWU : a + W ≤ U) (hHV : b + H ≤ V) :
    scanMask U V (rectMask a b W H t) = [⟨a, b, W, H, t⟩] := by
  unfold scanMask
  rw [range_split_at b V (by omega)]
  rw [scanRows_append]
  rw [scanRows_rows_none U V (List.range b) [] (rectMask a b W H t) ?hpre]
  case hpre =>
    intro j hj x
    unfold rectMask
    rw [if_neg (by have := List.mem_range.mp hj; omega)]
  have hstep : scanRows U V
      (b :: (List.range (V - (b + 1))).map (fun k => (b + 1) + k))
      ([], rectMask a b W H t) =
      ([⟨a, b, W, H, t⟩], clearRect (rectMask a b W H t) a b W H) := by
    unfold scanRows
    rw [List.foldl_cons]
    dsimp only
    rw [scanRowAux_rect U V a b W H t hW hH hWU hHV]
    simp only [List.nil_append]
    exact scanRows_rows_none U V _ _ _
      (fun j _ x => clearRect_rect a b W H t x j)
  rw [hstep]

theorem scanRows_covered (U V : ℕ) (rows : List ℕ)
    (st : List RectQuad × Mask) (m0 : Mask)
    (hq : ∀ r ∈ st.1, coveredBy m0 r) (hm : maskLe st.2 m0) :
    (∀ r ∈ (scanRows U V rows st).1, coveredBy m0 r) ∧
      maskLe (scanRows U V rows st).2 m0 := by
  induction rows generalizing st with
  | nil => exact ⟨hq, hm⟩
  | cons j tl ih =>
    unfold scanRows
    rw [List.foldl_cons]
    dsimp only
    apply ih
    · intro r hr
      rcases List.mem_append.mp hr with h1 | h2
      · exact hq r h1
      · intro k hk l hl
        exact hm _ _ _ (scanRowAux_quads_covered U V st.2 j 0 r h2 k hk l hl)
    · exact maskLe_trans (scanRowAux_mask_le U V st.2 j 0) hm

theorem scanMask_covered (U V : ℕ) (m : Mask) :
    ∀ r ∈ scanMask U V m, coveredBy m r := by
  unfold scanMask
  exact (scanRows_covered U V (List.range V) ([], m) m
    (by intro r hr; cases hr) (fun a b t h => h)).1

theorem getBlock_inB (c : ChunkData) (x y z : ℤ) (h : inB x y z) :
    getBlock c x y z = c x y z := by
  unfold inB at h
  unfold getBlock
  rw [if_neg (by omega)]

theorem maskAt_some (c : ChunkData) (a s i j : ℕ) (t : BlockType)
    (h : maskAt c a s i j = some t) :
    getBlock c (coordOf a s i j).1 (coordOf a s i j).2.1
        (coordOf a s i j).2.2 = t ∧
      getBlock c ((coordOf a s i j).1 + (qvec a).1)
        ((coordOf a s i j).2.1 + (qvec a).2.1)
        ((coordOf a s i j).2.2 + (qvec a).2.2) = BlockType.air := by
  simp only [maskAt] at h
  split_ifs at h with hc
  · injection h with h'
    exact ⟨h', hc.2⟩

theorem cellList_bounds : ∀ p ∈ cellList, inB p.1 p.2.1 p.2.2 := by
  intro p hp
  unfold cellList at hp
  obtain ⟨q, hq, rfl⟩ := List.mem_map.mp hp
  rcases q with ⟨q1, q2, q3⟩
  rw [List.pair_mem_product] at hq
  obtain ⟨hq1, hq23⟩ := hq
  rw [List.pair_mem_product] at hq23
  obtain ⟨hq2, hq3⟩ := hq23
  rw [List.mem_range] at hq1 hq2 hq3
  unfold inB
  dsimp only
  omega

theorem naiveQuads_mem (c : ChunkData) (q : SQuad)
    (h : q ∈ naiveQuads c) :
    inB q.x q.y q.z ∧ c q.x q.y q.z ≠ BlockType.air ∧
      shouldRenderFace c q.x q.y q.z q.f.dir = true ∧
      q.bt = c q.x q.y q.z ∧ q.f ∈ faceList := by
  unfold naiveQuads at h
  obtain ⟨p, hp, hq⟩ := List.mem_flatMap.mp h
  have hbounds := cellList_bounds p hp
  unfold cellQuads at hq
  split_ifs at hq with hair
  · cases hq
  · obtain ⟨f, hf, rfl⟩ := List.mem_map.mp hq
    have hfil := List.of_mem_filter hf
    have hmem := List.mem_of_mem_filter hf
    exact ⟨hbounds, hair, hfil, rfl, hmem⟩

theorem naive_fullySolid_boundary (c : ChunkData) (_hs : fullySolid c) :
    ∀ q ∈ naiveQuads c, ¬ sQuadInterior c q := by
  intro q hq hint
  obtain ⟨hinb, hnair⟩ := hint
  obtain ⟨_, _, hsrf, _, _⟩ := naiveQuads_mem c q hq
  unfold shouldRenderFace at hsrf
  have hair := of_decide_eq_true hsrf
  dsimp only [sQuadNeighbor] at hinb hnair
  rw [getBlock_inB _ _ _ _ hinb] at hair
  exact hnair hair

theorem greedy_fullySolid_boundary (c : ChunkData) (hs : fullySolid c) :
    ∀ q ∈ greedyQuads c, ∀ k, k < q.r.w → ∀ l, l < q.r.h →
      ¬ inB (gQuadNeighbor q k l).1 (gQuadNeighbor q k l).2.1
        (gQuadNeighbor q k l).2.2 := by
  intro q hq k hk l hl hinb
  unfold greedyQuads at hq
  obtain ⟨a, ha, hq1⟩ := List.mem_flatMap.mp hq
  obtain ⟨sl, hsl, hq2⟩ := List.mem_flatMap.mp hq1
  obtain ⟨r, hr, rfl⟩ := List.mem_map.mp hq2
  have hcov := scanMask_covered _ _ _ r hr k hk l hl
  have hnb := (maskAt_some c a sl (r.i + k) (r.j + l) r.t hcov).2
  dsimp only [gQuadNeighbor, gQuadCell] at hinb
  rw [getBlock_inB _ _ _ _ hinb] at hnb
  exact hs _ _ _ hinb hnb

/-! ## Single-solid-cell scenario -/

theorem getBlock_single (c : ChunkData) (px py pz : ℕ)
    (hpx : px < 16) (hpy : py < 64) (hpz : pz < 16)
    (hair : ∀ x y z : ℤ, inB x y z →
      ¬(x = (px : ℤ) ∧ y = (py : ℤ) ∧ z = (pz : ℤ)) →
      c x y z = BlockType.air) (x y z : ℤ) :
    getBlock c x y z =
      if x = (px : ℤ) ∧ y = (py : ℤ) ∧ z = (pz : ℤ)
      then c (px : ℤ) (py : ℤ) (pz : ℤ) else BlockType.air := by
  unfold getBlock
  by_cases hb : x < 0 ∨ x ≥ 16 ∨ y < 0 ∨ y ≥ 64 ∨ z < 0 ∨ z ≥ 16
  · rw [if_pos hb, if_neg]
    rintro ⟨rfl, rfl, rfl⟩
    omega
  · rw [if_neg hb]
    by_cases hp : x = (px : ℤ) ∧ y = (py : ℤ) ∧ z = (pz : ℤ)
    · obtain ⟨rfl, rfl, rfl⟩ := hp
      rw [if_pos ⟨rfl, rfl, rfl⟩]
    · rw [if_neg hp]
      exact hair x y z (by unfold inB; omega) hp

theorem maskAt_single_axis0 (c : ChunkData) (px py pz : ℕ)
    (hpx : px < 16) (hpy : py < 64) (hpz : pz < 16)
    (hsolid : c (px : ℤ) (py : ℤ) (pz : ℤ) ≠ BlockType.air)
    (hair : ∀ x y z : ℤ, inB x y z →
      ¬(x = (px : ℤ) ∧ y = (py : ℤ) ∧ z = (pz : ℤ)) →
      c x y z = BlockType.air) :
    maskAt c 0 px = rectMask py pz 1 1 (c (px : ℤ) (py : ℤ) (pz : ℤ)) := by
  funext i j
  simp only [maskAt, coordOf, qvec]
  rw [getBlock_single c px py pz hpx hpy hpz hair,
    getBlock_single c px py pz hpx hpy hpz hair]
  unfold rectMask
  split_ifs <;> first | rfl | omega | simp_all

theorem maskAt_single_axis0_off (c : ChunkData) (px py pz : ℕ)
    (hpx : px < 16) (hpy : py < 64) (hpz : pz < 16)
    (hair : ∀ x y z : ℤ, inB x y z →
      ¬(x = (px : ℤ) ∧ y = (py : ℤ) ∧ z = (pz : ℤ)) →
      c x y z = BlockType.air)
    (s : ℕ) (hs : s ≠ px) (i j : ℕ) : maskAt c 0 s i j = none := by
  simp only [maskAt, coordOf, qvec]
  rw [getBlock_single c px py pz hpx hpy hpz hair]
  split_ifs <;> first | rfl | omega | simp_all

theorem maskAt_single_axis1 (c : ChunkData) (px py pz : ℕ)
    (hpx : px < 16) (hpy : py < 64) (hpz : pz < 16)
    (hsolid : c (px : ℤ) (py : ℤ) (pz : ℤ) ≠ BlockType.air)
    (hair : ∀ x y z : ℤ, inB x y z →
      ¬(x = (px : ℤ) ∧ y = (py : ℤ) ∧ z = (pz : ℤ)) →
      c x y z = BlockType.air) :
    maskAt c 1 py = rectMask pz px 1 1 (c (px : ℤ) (py : ℤ) (pz : ℤ)) := by
  funext i j
  simp only [maskAt, coordOf, qvec]
  rw [getBlock_single c px py pz hpx hpy hpz hair,
    getBlock_single c px py pz hpx hpy hpz hair]
  unfold rectMask
  split_ifs <;> first | rfl | omega | simp_all

theorem maskAt_single_axis1_off (c : ChunkData) (px py pz : ℕ)
    (hpx : px < 16) (hpy : py < 64) (hpz : pz < 16)
    (hair : ∀ x y z : ℤ, inB x y z →
      ¬(x = (px : ℤ) ∧ y = (py : ℤ) ∧ z = (pz : ℤ)) →
      c x y z = BlockType.air)
    (s : ℕ) (hs : s ≠ py) (i j : ℕ) : maskAt c 1 s i j = none := by
  simp only [maskAt, coordOf, qvec]
  rw [getBlock_single c px py pz hpx hpy hpz hair]
  split_ifs <;> first | rfl | omega | simp_all

theorem maskAt_single_axis2 (c : ChunkData) (px py pz : ℕ)
    (hpx : px < 16) (hpy : py < 64) (hpz : pz < 16)
    (hsolid : c (px : ℤ) (py : ℤ) (pz : ℤ) ≠ BlockType.air)
    (hair : ∀ x y z : ℤ, inB x y z →
      ¬(x = (px : ℤ) ∧ y = (py : ℤ) ∧ z = (pz : ℤ)) →
      c x y z = BlockType.air) :
    maskAt c 2 pz = rectMask px py 1 1 (c (px : ℤ) (py : ℤ) (pz : ℤ)) := by
  funext i j
  simp only [maskAt, coordOf, qvec]
  rw [getBlock_single c px py pz hpx hpy hpz hair,
    getBlock_single c px py pz hpx hpy hpz hair]
  unfold rectMask
  split_ifs <;> first | rfl | omega | simp_all

theorem maskAt_single_axis2_off (c : ChunkData) (px py pz : ℕ)
    (hpx : px < 16) (hpy : py < 64) (hpz : pz < 16)
    (hair : ∀ x y z : ℤ, inB x y z →
      ¬(x = (px : ℤ) ∧ y = (py : ℤ) ∧ z = (pz : ℤ)) →
      c x y z = BlockType.air)
    (s : ℕ) (hs : s ≠ pz) (i j : ℕ) : maskAt c 2 s i j = none := by
  simp only [maskAt, coordOf, qvec]
  rw [getBlock_single c px py pz hpx hpy hpz hair]
  split_ifs <;> first | rfl | omega | simp_all

theorem axis_count_one (a : ℕ) (c : ChunkData) (sstar : ℕ)
    (hlt : sstar < sliceCount a)
    (hlen : (scanMask (maskU a) (maskV a) (maskAt c a sstar)).length = 1)
    (hoff : ∀ s, s ≠ sstar → ∀ i j, maskAt c a s i j = none) :
    ((List.range (sliceCount a)).flatMap
      (fun s => (scanMask (maskU a) (maskV a) (maskAt c a s)).map
        (GQuad.mk a s))).length = 1 := by
  rw [List.length_flatMap]
  refine sum_map_single
    (nodup_split (List.nodup_range (sliceCount a))
      (List.mem_range.mpr hlt)) ?_ ?_
  · dsimp only [Function.comp]
    rw [List.length_map]
    exact hlen
  · intro s _ hne
    dsimp only [Function.comp]
    rw [List.length_map, scanMask_none _ _ _ (hoff s hne)]
    rfl

theorem greedy_single_count (c : ChunkData) (px py pz : ℕ)
    (hpx : px < 16) (hpy : py < 64) (hpz : pz < 16) (hpy16 : py < 16)
    (hsolid : c (px : ℤ) (py : ℤ) (pz : ℤ) ≠ BlockType.air)
    (hair : ∀ x y z : ℤ, inB x y z →
      ¬(x = (px : ℤ) ∧ y = (py : ℤ) ∧ z = (pz : ℤ)) →
      c x y z = BlockType.air) :
    greedyQuadCount c = 3 := by
  have l0 : (scanMask (maskU 0) (maskV 0) (maskAt c 0 px)).length = 1 := by
    rw [maskAt_single_axis0 c px py pz hpx hpy hpz hsolid hair]
    rw [scanMask_rect (maskU 0) (maskV 0) py pz 1 1 _ le_rfl le_rfl
      (show py + 1 ≤ 64 by omega) (show pz + 1 ≤ 16 by omega)]
    rfl
  have l1 : (scanMask (maskU 1) (maskV 1) (maskAt c 1 py)).length = 1 := by
    rw [maskAt_single_axis1 c px py pz hpx hpy hpz hsolid hair]
    rw [scanMask_rect (maskU 1) (maskV 1) pz px 1 1 _ le_rfl le_rfl
      (show pz + 1 ≤ 16 by omega) (show px + 1 ≤ 64 by omega)]
    rfl
  have l2 : (scanMask (maskU 2) (maskV 2) (maskAt c 2 pz)).length = 1 := by
    rw [maskAt_single_axis2 c px py pz hpx hpy hpz hsolid hair]
    rw [scanMask_rect (maskU 2) (maskV 2) px py 1 1 _ le_rfl le_rfl
      (show px + 1 ≤ 16 by omega) (show py + 1 ≤ 16 by omega)]
    rfl
  have h0 := axis_count_one 0 c px (by exact hpx) l0
    (fun s hs i j =>
      maskAt_single_axis0_off c px py pz hpx hpy hpz hair s hs i j)
  have h1 := axis_count_one 1 c py (by exact hpy16) l1
    (fun s hs i j =>
      maskAt_single_axis1_off c px py pz hpx hpy hpz hair s hs i j)
  have h2 := axis_count_one 2 c pz (show pz < sliceCount 2 by
      show pz < 64; omega) l2
    (fun s hs i j =>
      maskAt_single_axis2_off c px py pz hpx hpy hpz hair s hs i j)
  unfold greedyQuadCount greedyQuads
  rw [List.flatMap_cons, List.flatMap_cons, List.flatMap_cons,
    List.flatMap_nil, List.append_nil, List.length_append,
    List.length_append]
  rw [h0, h1, h2]

theorem cellList_nodup : cellList.Nodup := by
  unfold cellList
  apply List.Nodup.map
  · intro p q hpq
    rcases p with ⟨p1, p2, p3⟩
    rcases q with ⟨q1, q2, q3⟩
    simp only [Prod.ext_iff] at hpq ⊢
    omega
  · exact List.Nodup.product (List.nodup_range 16)
      (List.Nodup.product (List.nodup_range 64) (List.nodup_range 16))

theorem cellList_mem (px py pz : ℕ) (hpx : px < 16) (hpy : py < 64)
    (hpz : pz < 16) :
    ((px : ℤ), (py : ℤ), (pz : ℤ)) ∈ cellList := by
  unfold cellList
  apply List.mem_map.mpr
  refine ⟨(px, py, pz), ?_, rfl⟩
  rw [List.pair_mem_product]
  refine ⟨List.mem_range.mpr hpx, ?_⟩
  rw [List.pair_mem_product]
  exact ⟨List.mem_range.mpr hpy, List.mem_range.mpr hpz⟩

theorem naive_single_count (c : ChunkData) (px py pz : ℕ)
    (hpx : px < 16) (hpy : py < 64) (hpz : pz < 16)
    (hsolid : c (px : ℤ) (py : ℤ) (pz : ℤ) ≠ BlockType.air)
    (hair : ∀ x y z : ℤ, inB x y z →
      ¬(x = (px : ℤ) ∧ y = (py : ℤ) ∧ z = (pz : ℤ)) →
      c x y z = BlockType.air) :
    naiveQuadCount c = 6 := by
  unfold naiveQuadCount naiveQuads
  rw [List.length_flatMap]
  refine sum_map_single
    (nodup_split cellList_nodup (cellList_mem px py pz hpx hpy hpz))
    ?_ ?_
  · dsimp only [Function.comp]
    unfold cellQuads
    rw [if_neg hsolid, List.length_map,
      List.filter_eq_self.mpr ?hall]
    case hall =>
      intro f hf
      simp only [faceList, List.mem_cons, List.not_mem_nil, or_false] at hf
      rcases hf with rfl | rfl | rfl | rfl | rfl | rfl <;>
        (unfold shouldRenderFace
         dsimp only
         rw [getBlock_single c px py pz hpx hpy hpz hair,
           if_neg (by omega)]
         rfl)
    rfl
  · intro p hp hne
    dsimp only [Function.comp]
    unfold cellQuads
    rw [if_pos ?pair]
    case pair =>
      rcases p with ⟨p1, p2, p3⟩
      have hbounds := cellList_bounds _ hp
      apply hair p1 p2 p3 hbounds
      rintro ⟨rfl, rfl, rfl⟩
      exact hne rfl
    rfl

/-! ## Flat slab scenario -/

theorem maskAt_slab_axis1 (x0 z0 k W H : ℕ) (t : BlockType)
    (ht : t ≠ BlockType.air) (hx : x0 + W ≤ 16) (hz : z0 + H ≤ 16)
    (hk : k < 16) :
    maskAt (slabChunk (x0 : ℤ) (z0 : ℤ) (k : ℤ) W H t) 1 k =
      rectMask z0 x0 H W t := by
  funext i j
  simp only [maskAt, coordOf, qvec]
  unfold getBlock slabChunk rectMask
  split_ifs <;> first | rfl | omega | simp_all

theorem maskAt_slab_axis1_off (x0 z0 k W H : ℕ) (t : BlockType)
    (s : ℕ) (hs : s ≠ k) (i j : ℕ) :
    maskAt (slabChunk (x0 : ℤ) (z0 : ℤ) (k : ℤ) W H t) 1 s i j = none := by
  simp only [maskAt, coordOf, qvec]
  unfold getBlock slabChunk
  split_ifs <;> first | rfl | omega | simp_all

theorem axis_countP_ne (a : ℕ) (c : ChunkData) (n : ℤ × ℤ × ℤ)
    (hne : qvec a ≠ n) :
    ((List.range (sliceCount a)).flatMap
      (fun s => (scanMask (maskU a) (maskV a) (maskAt c a s)).map
        (GQuad.mk a s))).countP
      (fun q => decide (qvec q.axis = n)) = 0 := by
  rw [List.countP_eq_zero]
  intro q hq
  obtain ⟨sl, _, hq2⟩ := List.mem_flatMap.mp hq
  obtain ⟨r, _, rfl⟩ := List.mem_map.mp hq2
  simp [hne]

theorem axis_countP_all (a : ℕ) (c : ChunkData) (n : ℤ × ℤ × ℤ)
    (heq : qvec a = n) :
    ((List.range (sliceCount a)).flatMap
      (fun s => (scanMask (maskU a) (maskV a) (maskAt c a s)).map
        (GQuad.mk a s))).countP
      (fun q => decide (qvec q.axis = n)) =
    ((List.range (sliceCount a)).flatMap
      (fun s => (scanMask (maskU a) (maskV a) (maskAt c a s)).map
        (GQuad.mk a s))).length := by
  rw [List.countP_eq_length]
  intro q hq
  obtain ⟨sl, _, hq2⟩ := List.mem_flatMap.mp hq
  obtain ⟨r, _, rfl⟩ := List.mem_map.mp hq2
  simp [heq]

theorem slab_counts (x0 z0 k W H : ℕ) (t : BlockType)
    (ht : t ≠ BlockType.air) (hW : 1 ≤ W) (hH : 1 ≤ H)
    (hx : x0 + W ≤ 16) (hz : z0 + H ≤ 16) (hk : k < 16) :
    greedyNormalCount (slabChunk (x0 : ℤ) (z0 : ℤ) (k : ℤ) W H t)
        (0, 1, 0) = 1 ∧
      greedyNormalCount (slabChunk (x0 : ℤ) (z0 : ℤ) (k : ℤ) W H t)
        (0, -1, 0) = 0 := by
  have hlen1 : ((List.range (sliceCount 1)).flatMap
      (fun s => (scanMask (maskU 1) (maskV 1)
        (maskAt (slabChunk (x0 : ℤ) (z0 : ℤ) (k : ℤ) W H t) 1 s)).map
        (GQuad.mk 1 s))).length = 1 := by
    apply axis_count_one 1 _ k (by exact hk)
    · rw [maskAt_slab_axis1 x0 z0 k W H t ht hx hz hk]
      rw [scanMask_rect (maskU 1) (maskV 1) z0 x0 H W t hH hW
        (show z0 + H ≤ 16 by omega) (show x0 + W ≤ 64 by omega)]
      rfl
    · exact fun s hs i j => maskAt_slab_axis1_off x0 z0 k W H t s hs i j
  constructor
  · unfold greedyNormalCount greedyQuads
    simp only [List.flatMap_cons, List.flatMap_nil, List.append_nil]
    rw [List.countP_append, List.countP_append]
    rw [axis_countP_ne 0 _ _ (by decide), axis_countP_ne 2 _ _ (by decide)]
    rw [axis_countP_all 1 _ ((0 : ℤ), (1 : ℤ), (0 : ℤ)) (by decide)]
    rw [hlen1]
  · unfold greedyNormalCount greedyQuads
    simp only [List.flatMap_cons, List.flatMap_nil, List.append_nil]
    rw [List.countP_append, List.countP_append]
    rw [axis_countP_ne 0 _ _ (by decide), axis_countP_ne 1 _ _ (by decide),
      axis_countP_ne 2 _ _ (by decide)]

/-- C2 counterexample: for a flat one-block-thick 4×6 Grass slab at height
5 surrounded by Air, the greedy mesher emits zero quads with the downward
normal (0,−1,0) — not the one merged bottom quad the claim asserts (its
sweeps only ever emit positive-direction faces). -/
theorem claimC2_counterexample :
    greedyNormalCount (slabChunk 4 4 5 4 6 BlockType.grass) (0, -1, 0) = 0 ∧
      (0 : ℕ) ≠ 1 := by
  constructor
  · have := (slab_counts 4 4 5 4 6 BlockType.grass (by decide) (by omega)
      (by omega) (by omega) (by omega) (by omega)).2
    simpa using this
  · decide

/-- C2 (amended): for a fully solid chunk grid both meshers emit zero
quads at fully interior faces (every emitted naive quad's tested
neighbour, and every cell of every emitted greedy quad, faces out of the
grid); and for a flat one-block-thick single-type W×H slab surrounded by
Air at height `k < 16`, the greedy mesher emits exactly one merged top
quad (normal (0,1,0)) and zero bottom quads (normal (0,−1,0)): the sweep
loops only emit positive-direction faces, so no merged bottom quad
exists. -/
theorem claimC2 :
    (∀ c : ChunkData, fullySolid c →
      (∀ q ∈ naiveQuads c, ¬ sQuadInterior c q) ∧
      (∀ q ∈ greedyQuads c, ∀ k, k < q.r.w → ∀ l, l < q.r.h →
        ¬ inB (gQuadNeighbor q k l).1 (gQuadNeighbor q k l).2.1
          (gQuadNeighbor q k l).2.2)) ∧
    (∀ x0 z0 k W H : ℕ, ∀ t : BlockType, t ≠ BlockType.air → 1 ≤ W →
      1 ≤ H → x0 + W ≤ 16 → z0 + H ≤ 16 → k < 16 →
      greedyNormalCount (slabChunk (x0 : ℤ) (z0 : ℤ) (k : ℤ) W H t)
          (0, 1, 0) = 1 ∧
        greedyNormalCount (slabChunk (x0 : ℤ) (z0 : ℤ) (k : ℤ) W H t)
          (0, -1, 0) = 0) := by
  constructor
  · intro c hs
    exact ⟨naive_fullySolid_boundary c hs, greedy_fullySolid_boundary c hs⟩
  · intro x0 z0 k W H t ht hW hH hx hz hk
    exact slab_counts x0 z0 k W H t ht hW hH hx hz hk

theorem claimC2_witness :
    fullySolid (fun _ _ _ => BlockType.stone) ∧
      ((∀ q ∈ naiveQuads (fun _ _ _ => BlockType.stone),
          ¬ sQuadInterior (fun _ _ _ => BlockType.stone) q) ∧
        (∀ q ∈ greedyQuads (fun _ _ _ => BlockType.stone),
          ∀ k, k < q.r.w → ∀ l, l < q.r.h →
          ¬ inB (gQuadNeighbor q k l).1 (gQuadNeighbor q k l).2.1
            (gQuadNeighbor q k l).2.2)) ∧
      (BlockType.grass ≠ BlockType.air ∧ 1 ≤ 4 ∧ 1 ≤ 6 ∧
        (2 : ℕ) + 4 ≤ 16 ∧ (3 : ℕ) + 6 ≤ 16 ∧ (7 : ℕ) < 16 ∧
        (greedyNormalCount
            (slabChunk ((2 : ℕ) : ℤ) ((3 : ℕ) : ℤ) ((7 : ℕ) : ℤ) 4 6
              BlockType.grass) (0, 1, 0) = 1 ∧
          greedyNormalCount
            (slabChunk ((2 : ℕ) : ℤ) ((3 : ℕ) : ℤ) ((7 : ℕ) : ℤ) 4 6
              BlockType.grass) (0, -1, 0) = 0)) :=
  ⟨fun _ _ _ _ => (show BlockType.stone ≠ BlockType.air by decide),
    (claimC2.1 (fun _ _ _ => BlockType.stone)
      (fun _ _ _ _ => (show BlockType.stone ≠ BlockType.air by decide))),
    by decide, by decide, by decide, by decide, by decide, by decide,
    claimC2.2 2 3 7 4 6 BlockType.grass (by decide) (by decide)
      (by decide) (by decide) (by decide) (by decide)⟩

/-- C1 counterexample: on a grid holding exactly one solid cell (Stone at
(8,8,8), Air elsewhere) the naive mesher emits the claimed 6 quads, but
the greedy mesher emits 3 quads, not the same 6: its sweeps only test the
positive-direction neighbour, so the −X, −Y and −Z faces are never
emitted. -/
theorem claimC1_counterexample :
    naiveQuadCount (singleCellChunk 8 8 8 BlockType.stone) = 6 ∧
      greedyQuadCount (singleCellChunk 8 8 8 BlockType.stone) ≠ 6 := by
  have hair : ∀ x y z : ℤ, inB x y z →
      ¬(x = ((8 : ℕ) : ℤ) ∧ y = ((8 : ℕ) : ℤ) ∧ z = ((8 : ℕ) : ℤ)) →
      singleCellChunk 8 8 8 BlockType.stone x y z = BlockType.air := by
    intro x y z _ hne
    unfold singleCellChunk
    rw [if_neg]
    intro hc
    apply hne
    refine ⟨?_, ?_, ?_⟩ <;> (push_cast; omega)
  constructor
  · exact naive_single_count _ 8 8 8 (by omega) (by omega) (by omega)
      (by decide) hair
  · have h3 := greedy_single_count _ 8 8 8 (by omega) (by omega) (by omega)
      (by omega) (by decide) hair
    omega

/-- C1 (amended): for every chunk grid holding exactly one non-Air cell
(at `(px,py,pz)`, all other in-bounds cells Air), the naive mesher
`createSimpleChunkMesh` emits exactly 6 quads — 72 position numbers
(24 vertices) and 36 indices (12 triangles) — while the greedy mesher
`createGreedyChunkMesh` emits only 3 quads when `py < 16` (its sweeps emit
positive-direction faces only, and the Y/Z sweeps additionally cover only
`y < 16` because of the transposed `dims` rows), not the same 6 quads the
claim asserts. -/
theorem claimC1 (c : ChunkData) (px py pz : ℕ)
    (hpx : px < 16) (hpy : py < 64) (hpz : pz < 16) (hpy16 : py < 16)
    (hsolid : c (px : ℤ) (py : ℤ) (pz : ℤ) ≠ BlockType.air)
    (hair : ∀ x y z : ℤ, inB x y z →
      ¬(x = (px : ℤ) ∧ y = (py : ℤ) ∧ z = (pz : ℤ)) →
      c x y z = BlockType.air) :
    naiveQuadCount c = 6 ∧
      (buildBuffer (naiveQuads c) 0).vertices.length = 72 ∧
      (buildBuffer (naiveQuads c) 0).indices.length = 36 ∧
      greedyQuadCount c = 3 := by
  have hn := naive_single_count c px py pz hpx hpy hpz hsolid hair
  refine ⟨hn, ?_, ?_,
    greedy_single_count c px py pz hpx hpy hpz hpy16 hsolid hair⟩
  · rw [buildBuffer_vertices_length]
    unfold naiveQuadCount at hn
    rw [hn]
  · rw [buildBuffer_indices_length]
    unfold naiveQuadCount at hn
    rw [hn]

theorem claimC1_witness :
    (3 < 16) ∧ (5 < 64) ∧ (7 < 16) ∧ (5 < 16) ∧
      (singleCellChunk 3 5 7 BlockType.stone ((3 : ℕ) : ℤ) ((5 : ℕ) : ℤ)
          ((7 : ℕ) : ℤ) ≠ BlockType.air) ∧
      (∀ x y z : ℤ, inB x y z →
        ¬(x = ((3 : ℕ) : ℤ) ∧ y = ((5 : ℕ) : ℤ) ∧ z = ((7 : ℕ) : ℤ)) →
        singleCellChunk 3 5 7 BlockType.stone x y z = BlockType.air) ∧
      (naiveQuadCount (singleCellChunk 3 5 7 BlockType.stone) = 6 ∧
        (buildBuffer (naiveQuads (singleCellChunk 3 5 7 BlockType.stone))
          0).vertices.length = 72 ∧
        (buildBuffer (naiveQuads (singleCellChunk 3 5 7 BlockType.stone))
          0).indices.length = 36 ∧
        greedyQuadCount (singleCellChunk 3 5 7 BlockType.stone) = 3) := by
  have hair : ∀ x y z : ℤ, inB x y z →
      ¬(x = ((3 : ℕ) : ℤ) ∧ y = ((5 : ℕ) : ℤ) ∧ z = ((7 : ℕ) : ℤ)) →
      singleCellChunk 3 5 7 BlockType.stone x y z = BlockType.air := by
    intro x y z _ hne
    unfold singleCellChunk
    rw [if_neg]
    intro hc
    apply hne
    refine ⟨?_, ?_, ?_⟩ <;> (push_cast; omega)
  exact ⟨by omega, by omega, by omega, by omega, by decide, hair,
    claimC1 (singleCellChunk 3 5 7 BlockType.stone) 3 5 7 (by omega)
      (by omega) (by omega) (by omega) (by decide) hair⟩

/-- C9: both meshers return an absent result (`none`) exactly when they
emit no quads; in particular both return `none` on the all-Air grid
rather than an empty buffer. -/
theorem claimC9 :
    (∀ c : ChunkData,
        (createSimpleChunkMesh c = none ↔ naiveQuads c = [])) ∧
    (∀ c : ChunkData,
        (createGreedyChunkMesh c = none ↔ greedyQuads c = [])) ∧
    createSimpleChunkMesh airGrid = none ∧
    createGreedyChunkMesh airGrid = none := by
  have hsimple : ∀ c : ChunkData,
      (createSimpleChunkMesh c = none ↔ naiveQuads c = []) := by
    intro c
    unfold createSimpleChunkMesh
    dsimp only
    have hlen := buildBuffer_vertices_length (naiveQuads c) 0
    split
    next he =>
      rw [List.isEmpty_iff, ← List.length_eq_zero] at he
      constructor
      · intro _
        rw [← List.length_eq_zero]
        omega
      · intro _
        rfl
    next he =>
      rw [List.isEmpty_iff, ← List.length_eq_zero] at he
      constructor
      · intro hcontr
        simp at hcontr
      · intro hq
        exfalso
        apply he
        rw [hlen, hq]
        rfl
  have hgreedy : ∀ c : ChunkData,
      (createGreedyChunkMesh c = none ↔ greedyQuads c = []) := by
    intro c
    unfold createGreedyChunkMesh
    dsimp only
    have hlen := buildGreedyBuffer_vertices_length (greedyQuads c) 0
    split
    next he =>
      rw [List.isEmpty_iff, ← List.length_eq_zero] at he
      constructor
      · intro _
        rw [← List.length_eq_zero]
        omega
      · intro _
        rfl
    next he =>
      rw [List.isEmpty_iff, ← List.length_eq_zero] at he
      constructor
      · intro hcontr
        simp at hcontr
      · intro hq
        exfalso
        apply he
        rw [hlen, hq]
        rfl
  refine ⟨hsimple, hgreedy, ?_, ?_⟩
  · rw [hsimple]
    exact naiveQuads_airGrid
  · rw [hgreedy]
    exact greedyQuads_airGrid

/-- C4 counterexample: the claim says every cell written by
`generateTree` is inside the grid for all integer inputs, but calling it
at the malformed local coordinate `z = 16` (with `x = 0`, `y = 0`) writes
trunk Wood at `(0, 0, 16)`, which is outside the 16×16×64 grid. -/
theorem claimC4_counterexample :
    generateTree airGrid 0 0 16 5 0 0 16 = BlockType.wood ∧
      ¬ inB 0 0 16 := by
  constructor
  · rfl
  · decide

/-- C4 (amended): for callers that supply in-range horizontal coordinates
(`0 ≤ x,z < 16`), a non-negative ground height and a tree height of at
least 2 (the real draws are 5–7), every cell written by `generateTree`
lies inside the grid: the grid is unchanged at every out-of-bounds cell.
For malformed caller-supplied coordinates the trunk and cap writes are
only clipped vertically, so out-of-grid writes can occur. -/
theorem claimC4 (g : ChunkData) (x y z th : ℤ)
    (hx0 : 0 ≤ x) (hx1 : x < 16) (hz0 : 0 ≤ z) (hz1 : z < 16)
    (hy : 0 ≤ y) (hth : 2 ≤ th) (a b c : ℤ) (hout : ¬ inB a b c) :
    generateTree g x y z th a b c = g a b c := by
  unfold generateTree
  dsimp only
  split
  case isTrue hcap =>
    rw [setBlock_preserve_out _ _ _ _ _ _ _ _ (by unfold inB; omega) hout,
        foldl_chunk_preserve _ _ _ a b c ?hleafT,
        foldl_chunk_preserve _ _ _ a b c ?htrunkT]
    case htrunkT =>
      intro g' dy _
      split
      next hY =>
        exact setBlock_preserve_out _ _ _ _ _ _ _ _ (by unfold inB; omega)
          hout
      next => rfl
    case hleafT =>
      intro gA dx hdx
      rw [foldl_chunk_preserve _ _ _ a b c ?hzT]
      case hzT =>
        intro gB dz hdz
        rw [foldl_chunk_preserve _ _ _ a b c ?hyT]
        case hyT =>
          intro gC dy _
          split
          next hguard =>
            split
            next =>
              exact setBlock_preserve_out _ _ _ _ _ _ _ _
                (by unfold inB; omega) hout
            next => rfl
          next => rfl
  case isFalse =>
    rw [foldl_chunk_preserve _ _ _ a b c ?hleafF,
        foldl_chunk_preserve _ _ _ a b c ?htrunkF]
    case htrunkF =>
      intro g' dy _
      split
      next hY =>
        exact setBlock_preserve_out _ _ _ _ _ _ _ _ (by unfold inB; omega)
          hout
      next => rfl
    case hleafF =>
      intro gA dx hdx
      rw [foldl_chunk_preserve _ _ _ a b c ?hzF]
      case hzF =>
        intro gB dz hdz
        rw [foldl_chunk_preserve _ _ _ a b c ?hyF]
        case hyF =>
          intro gC dy _
          split
          next hguard =>
            split
            next =>
              exact setBlock_preserve_out _ _ _ _ _ _ _ _
                (by unfold inB; omega) hout
            next => rfl
          next => rfl

theorem claimC4_witness :
    (0 : ℤ) ≤ 5 ∧ (5 : ℤ) < 16 ∧ (0 : ℤ) ≤ 5 ∧ (5 : ℤ) < 16 ∧
      (0 : ℤ) ≤ 10 ∧ (2 : ℤ) ≤ 5 ∧ ¬ inB 16 0 0 ∧
      generateTree airGrid 5 10 5 5 16 0 0 = airGrid 16 0 0 :=
  ⟨by decide, by decide, by decide, by decide, by decide, by decide,
    by decide,
    claimC4 airGrid 5 10 5 5 (by decide) (by decide) (by decide)
      (by decide) (by decide) (by decide) 16 0 0 (by decide)⟩
